import Mathlib

/-!
Verification of the aiortp RTP/RTCP audio endpoint library.

This file gives a shallow embedding, in Lean 4, of the parts of the
library that the verified properties talk about: the STUN demux of
`transport.py`, the NACK generator and stream statistics of `stats.py`,
the DTMF sender/receiver of `dtmf.py`, the RTP sender of `sender.py` and
the send guards of `session.py`.  Machine integers are modelled as `Nat`
or `Int` with explicit reduction modulo `2^16` or `2^32` where the
Python code relies on it; byte strings are `List Nat`; fallible
operations return `Option` or `Except`.

The helpers `uint16_add`, `uint16_gt`, `clamp_packets_lost`,
`RTP_HISTORY_SIZE` and the `RtpPacket` value object live in
`utils.py` / `packet.py`, which are not part of the analysed sources;
they are modelled from the specification and marked as such.
-/

namespace Aiortp

/-- Modelled from the spec: `utils.py` is not among the sources.
`uint16_add(a, b)` is addition reduced modulo `2^16`; the second operand
may be negative (the library calls `uint16_add(max_seq, -RTP_HISTORY_SIZE)`). -/
def uint16_add (a : Nat) (b : Int) : Nat :=
  (((a : Int) + b) % 65536).toNat

/-- The 16-bit modular distance `(a - b) mod 2^16`, the quantity the
spec's 16-bit comparison is phrased with. -/
def mdist (a b : Nat) : Nat :=
  (((a : Int) - (b : Int)) % 65536).toNat

/-- Modelled from the spec: `utils.py` is not among the sources.
`uint16_gt(a, b)` holds iff `(a - b) mod 2^16` lies in `(0, 2^15)`. -/
def uint16_gt (a b : Nat) : Bool :=
  decide (0 < mdist a b ∧ mdist a b < 32768)

/-- Modelled from the spec: `packet.py` is not among the sources.
The NACK history window constant `RTP_HISTORY_SIZE = 2000`. -/
def RTP_HISTORY_SIZE : Nat := 2000

/-- Modelled from the spec: `packet.py` is not among the sources.
Clamp a cumulative packets-lost figure to the signed 24-bit range. -/
def clamp_packets_lost (x : Int) : Int :=
  max (-8388608) (min 8388607 x)

/-- Modelled from the spec: `packet.py` is not among the sources.
The `RtpPacket` value object, restricted to the fields the analysed code
reads: marker bit, payload type, 16-bit sequence number, 32-bit
timestamp, 32-bit SSRC and payload bytes. -/
structure RtpPacket where
  payload_type : Nat := 0
  marker : Nat := 0
  sequence_number : Nat := 0
  timestamp : Nat := 0
  ssrc : Nat := 0
  payload : List Nat := []
  deriving DecidableEq, Repr

/-! ## transport.py — STUN demultiplexing -/

/-- The STUN magic cookie (RFC 5389), `transport.py`. -/
def STUN_MAGIC : Nat := 0x2112A442

/-- The 32-bit big-endian integer at bytes 4..8, as read by
`unpack_from("!I", data, 4)`. -/
def stunCookieField (data : List Nat) : Nat :=
  data.getD 4 0 * 16777216 + data.getD 5 0 * 65536 +
    data.getD 6 0 * 256 + data.getD 7 0

/-- `_is_stun` from `transport.py`: length at least 20, top two bits of
byte 0 clear, and the magic cookie at bytes 4..8. -/
def is_stun (data : List Nat) : Bool :=
  decide (20 ≤ data.length) &&
    (data.getD 0 0 &&& 0xC0 == 0) &&
    (stunCookieField data == STUN_MAGIC)

/-- Modelled from the spec: `is_rtcp` lives in `packet.py`, which is not
among the sources.  The spec reports the literal source check as
`192 <= buf[1] <= 208`. -/
def is_rtcp (data : List Nat) : Bool :=
  decide (192 ≤ data.getD 1 0) && decide (data.getD 1 0 ≤ 208)

/-- `_stun_binding_response` from `transport.py`.  The source address is
given as a 32-bit host integer (`socket.inet_aton` big-endian value) and
a 16-bit port; `struct.pack` requires both in range. -/
def stun_binding_response (request : List Nat) (ip port : Nat) : List Nat :=
  let txn_id := (request.drop 8).take 12
  let xport := port ^^^ 0x2112
  let xaddr := ip ^^^ STUN_MAGIC
  let attr := [0x00, 0x20, 0x00, 0x08, 0x00, 0x01,
               xport / 256 % 256, xport % 256,
               xaddr / 16777216 % 256, xaddr / 65536 % 256,
               xaddr / 256 % 256, xaddr % 256]
  ([0x01, 0x01, 0x00, 0x0C, 0x21, 0x12, 0xA4, 0x42] ++ txn_id) ++ attr

/-- The observable effect of `RtpTransport.datagram_received` on one
datagram: reply with STUN bytes, drop a STUN datagram, or hand the bytes
to the RTCP or RTP callback. -/
inductive RxAction where
  | stun_reply (resp : List Nat) (ip port : Nat)
  | stun_drop
  | rtcp_in
  | rtp_in
  deriving DecidableEq, Repr

/-- `RtpTransport.datagram_received` from `transport.py`, for a
connected transport (`self._transport is not None`). -/
def datagram_received (data : List Nat) (ip port : Nat) : RxAction :=
  if is_stun data then
    if 20 ≤ data.length && data.getD 1 0 == 0x01 then
      .stun_reply (stun_binding_response data ip port) ip port
    else .stun_drop
  else if is_rtcp data then .rtcp_in
  else .rtp_in

/-- The STUN message type of a datagram: the big-endian 16-bit value in
bytes 0..2 (claim language; the source never computes it). -/
def stun_msg_type (data : List Nat) : Nat :=
  data.getD 0 0 * 256 + data.getD 1 0

/-- A STUN datagram whose message type is 0x0101 (a Binding Success, not
a Binding Request): byte 0 is 0x01 so the top two bits are clear and the
cookie matches, yet byte 1 is 0x01. -/
def stunOtherTypeDatagram : List Nat :=
  [0x01, 0x01, 0x00, 0x00, 0x21, 0x12, 0xA4, 0x42,
   9, 9, 9, 9, 9, 9, 9, 9, 9, 9, 9, 9]

/-- Big-endian 2-byte encoding, as `struct.pack("!H", x)` for `x < 2^16`. -/
def be16 (x : Nat) : List Nat := [x / 256 % 256, x % 256]

/-- Big-endian 4-byte encoding, as `struct.pack("!I", x)` for `x < 2^32`. -/
def be32 (x : Nat) : List Nat :=
  [x / 16777216 % 256, x / 65536 % 256, x / 256 % 256, x % 256]

/-- A well-formed STUN Binding Request (type 0x0001). -/
def stunBindingRequestDatagram : List Nat :=
  [0x00, 0x01, 0x00, 0x00, 0x21, 0x12, 0xA4, 0x42,
   1, 2, 3, 4, 5, 6, 7, 8, 9, 10, 11, 12]

/-! ## stats.py — NackGenerator -/

/-- `NackGenerator` state from `stats.py`: highest sequence seen so far
(`None` before the first packet) and the set of missing sequences. -/
structure NackGenerator where
  max_seq : Option Nat
  missing : Finset Nat
  deriving DecidableEq

/-- `NackGenerator.__init__`. -/
def NackGenerator.init : NackGenerator := ⟨none, ∅⟩

/-- The `while uint16_gt(packet.sequence_number, seq)` insertion loop of
`NackGenerator.add`.  The loop runs `(target - seq) mod 2^16` times,
which is below `2^15` whenever it is entered from `add`, so the fuel of
`2^16` passed by `add` is never exhausted. -/
def nackFill (target : Nat) : Nat → Nat → Finset Nat → Bool → Finset Nat × Bool
  | 0, _, missing, missed => (missing, missed)
  | fuel + 1, seq, missing, missed =>
    if uint16_gt target seq then
      nackFill target fuel (uint16_add seq 1) (insert seq missing) true
    else (missing, missed)

/-- `NackGenerator.truncate` from `stats.py`: drop every missing
sequence `s` with `uint16_gt(uint16_add(max_seq, -RTP_HISTORY_SIZE), s)`. -/
def NackGenerator.truncate (g : NackGenerator) : NackGenerator :=
  match g.max_seq with
  | none => g
  | some m =>
      { g with missing := (g.missing.filter
          (fun s => uint16_gt (uint16_add m (-(RTP_HISTORY_SIZE : Int))) s = false)) }

/-- `NackGenerator.add` from `stats.py`, returning the new state and the
`missed` flag. -/
def NackGenerator.add (g : NackGenerator) (packet : RtpPacket) :
    NackGenerator × Bool :=
  match g.max_seq with
  | none => ({ g with max_seq := some packet.sequence_number }, false)
  | some m =>
      if uint16_gt packet.sequence_number m then
        let fb := nackFill packet.sequence_number 65536 (uint16_add m 1) g.missing false
        (NackGenerator.truncate ⟨some packet.sequence_number, fb.1⟩, fb.2)
      else
        (NackGenerator.truncate ⟨some m, g.missing.erase packet.sequence_number⟩, false)

/-- Folding `NackGenerator.add` over a packet trace. -/
def nackFold (g : NackGenerator) : List RtpPacket → NackGenerator
  | [] => g
  | p :: ps => nackFold (NackGenerator.add g p).1 ps

/-- The set of sequences strictly between `m` and `t` in 16-bit modular
order (the "intervening" sequences of the spec). -/
def intervening (m t : Nat) : Finset Nat :=
  (Finset.range 65536).filter
    (fun u => uint16_gt t u = true ∧ uint16_gt u m = true)

/-- The inductive invariant of `NackGenerator`: all stored sequences are
16-bit values, the missing set is empty before the first packet, and
every missing sequence is within 2000 (modularly) behind `max_seq`. -/
def NackInv (g : NackGenerator) : Prop :=
  (∀ m, g.max_seq = some m → m < 65536) ∧
  (g.max_seq = none → g.missing = ∅) ∧
  (∀ s ∈ g.missing, s < 65536 ∧ ∀ m, g.max_seq = some m → mdist m s ≤ 2000)

/-! ## stats.py — StreamStatistics -/

/-- `StreamStatistics` state from `stats.py`.  Timestamps are stored as
integers (`Option` for the initial `None`); the arrival clock value
(`int(time.time() * clockrate)` in the source) is passed to `add` as an
explicit integer input. -/
structure StreamStatistics where
  clockrate : Nat
  base_seq : Option Nat
  max_seq : Option Nat
  cycles : Nat
  packets_received : Nat
  jitter_q4 : Int
  last_arrival : Option Int
  last_timestamp : Option Int
  expected_prior : Int
  received_prior : Int
  deriving DecidableEq, Repr

/-- `StreamStatistics.__init__`. -/
def StreamStatistics.init (clockrate : Nat) : StreamStatistics :=
  ⟨clockrate, none, none, 0, 0, 0, none, none, 0, 0⟩

/-- The cycle/max-seq update of `StreamStatistics.add` (executed on an
in-order packet): a numerically smaller but 16-bit-greater sequence adds
`1 << 16` to `cycles`; `max_seq` always advances. -/
def cycleUpdate (st : StreamStatistics) (packet : RtpPacket) : StreamStatistics :=
  match st.max_seq with
  | some m =>
      if packet.sequence_number < m then
        { st with cycles := st.cycles + 65536,
                  max_seq := some packet.sequence_number }
      else { st with max_seq := some packet.sequence_number }
  | none => { st with max_seq := some packet.sequence_number }

/-- The RFC 3550 §A.8 jitter update of `StreamStatistics.add`.  Python's
`x >> 4` on an `int` is floor division by 16, i.e. `Int.fdiv`; the
source reads `self._last_arrival` under a guard that ensures it is not
`None`, so the `getD 0` default is never exercised from `add`. -/
def jitterUpdate (st : StreamStatistics) (packet : RtpPacket) (arrival : Int) :
    StreamStatistics :=
  if st.last_timestamp ≠ some (packet.timestamp : Int) ∧ 1 < st.packets_received then
    { st with jitter_q4 := st.jitter_q4 +
        (|(arrival - st.last_arrival.getD 0) -
            ((packet.timestamp : Int) - st.last_timestamp.getD 0)| -
          Int.fdiv (st.jitter_q4 + 8) 16) }
  else st

/-- `StreamStatistics.add` from `stats.py`. -/
def StreamStatistics.add (st : StreamStatistics) (packet : RtpPacket)
    (arrival : Int) : StreamStatistics :=
  let in_order := match st.max_seq with
    | none => true
    | some m => uint16_gt packet.sequence_number m
  let st1 := { st with packets_received := st.packets_received + 1 }
  let st2 := match st1.base_seq with
    | none => { st1 with base_seq := some packet.sequence_number }
    | some _ => st1
  if in_order then
    { jitterUpdate (cycleUpdate st2 packet) packet arrival with
        last_arrival := some arrival,
        last_timestamp := some (packet.timestamp : Int) }
  else st2

/-- The `packets_expected` property.  The source evaluates
`cycles + max_seq - base_seq + 1` and raises on `None`; the `Option`
result models that partiality. -/
def StreamStatistics.packets_expected (st : StreamStatistics) : Option Int :=
  match st.max_seq, st.base_seq with
  | some m, some b => some ((st.cycles : Int) + m - b + 1)
  | _, _ => none

/-- The `packets_lost` property: clamped `expected - received`. -/
def StreamStatistics.packets_lost (st : StreamStatistics) : Option Int :=
  st.packets_expected.map
    (fun e => clamp_packets_lost (e - st.packets_received))

/-- The stateful `fraction_lost` property: returns the value and the
state with both priors updated.  Python's `//` on a positive numerator
and denominator (the only case that reaches the division) is floor
division, `Int.fdiv`. -/
def StreamStatistics.fraction_lost (st : StreamStatistics) :
    Option (Int × StreamStatistics) :=
  match st.packets_expected with
  | none => none
  | some expected =>
      let expected_interval := expected - st.expected_prior
      let received_interval := (st.packets_received : Int) - st.received_prior
      let st2 := { st with expected_prior := expected,
                           received_prior := (st.packets_received : Int) }
      let lost_interval := expected_interval - received_interval
      if expected_interval = 0 ∨ lost_interval ≤ 0 then some (0, st2)
      else some (Int.fdiv (lost_interval * 256) expected_interval, st2)

/-- The `jitter` property: `jitter_q4 >> 4`. -/
def StreamStatistics.jitter (st : StreamStatistics) : Int :=
  Int.fdiv st.jitter_q4 16

/-- Folding `StreamStatistics.add` over a trace of (packet, arrival)
pairs. -/
def statsFold (st : StreamStatistics) : List (RtpPacket × Int) → StreamStatistics
  | [] => st
  | (p, a) :: rest => statsFold (st.add p a) rest

/-- A sample statistics state: 3 packets received in order (sequences
0..3 with 2 skipped would give expected 4); used to witness the
fraction-lost and expected-formula theorems. -/
def sampleStats : StreamStatistics :=
  ⟨8000, some 0, some 3, 0, 3, 0, none, none, 0, 0⟩

/-! ## dtmf.py — events, receiver, sender -/

/-- RFC 4733 telephone-event payload (`DtmfEvent` in `dtmf.py`). -/
structure DtmfEvent where
  event : Nat
  end_ : Bool
  volume : Nat
  duration : Nat
  deriving DecidableEq, Repr

/-- `DtmfEvent.serialize`: `struct.pack("!BBH", event, flags, duration)`.
`struct.pack` raises when `event` exceeds a byte or `duration` exceeds
16 bits, modelled by `none`; the flags byte is always in range. -/
def DtmfEvent.serialize (ev : DtmfEvent) : Option (List Nat) :=
  if ev.event ≤ 255 ∧ ev.duration ≤ 65535 then
    some [ev.event, (if ev.end_ then 128 else 0) ||| (ev.volume &&& 63),
          ev.duration / 256, ev.duration % 256]
  else none

/-- `DtmfEvent.parse`: requires at least 4 payload bytes
(`ValueError` otherwise, modelled by `none`). -/
def DtmfEvent.parse (data : List Nat) : Option DtmfEvent :=
  if data.length < 4 then none
  else some ⟨data.getD 0 0, ((data.getD 1 0) &&& 128) != 0,
             (data.getD 1 0) &&& 63,
             (data.getD 2 0) * 256 + data.getD 3 0⟩

/-- Python `str.upper()` on a single character, by code point; faithful
for the ASCII range, which is the only range that can reach the DTMF
table. -/
def pyUpper (c : Nat) : Nat :=
  if 97 ≤ c ∧ c ≤ 122 then c - 32 else c

/-- The `DTMF_EVENTS` mapping of `dtmf.py`, keyed by the character's
code point: digits 0-9, `*`, `#`, `A`-`D`. -/
def dtmf_event_code (c : Nat) : Option Nat :=
  match c with
  | 48 => some 0
  | 49 => some 1
  | 50 => some 2
  | 51 => some 3
  | 52 => some 4
  | 53 => some 5
  | 54 => some 6
  | 55 => some 7
  | 56 => some 8
  | 57 => some 9
  | 42 => some 10
  | 35 => some 11
  | 65 => some 12
  | 66 => some 13
  | 67 => some 14
  | 68 => some 15
  | _ => none

/-- The `EVENT_TO_DIGIT` inverse mapping, with the `"?"` default of the
`digit` property. -/
def EVENT_TO_DIGIT (e : Nat) : String :=
  match e with
  | 0 => "0"
  | 1 => "1"
  | 2 => "2"
  | 3 => "3"
  | 4 => "4"
  | 5 => "5"
  | 6 => "6"
  | 7 => "7"
  | 8 => "8"
  | 9 => "9"
  | 10 => "*"
  | 11 => "#"
  | 12 => "A"
  | 13 => "B"
  | 14 => "C"
  | 15 => "D"
  | _ => "?"

/-- `DtmfReceiver` state: current event, current timestamp, end-seen
flag. -/
structure DtmfReceiver where
  current_event : Option Nat
  current_timestamp : Option Nat
  end_seen : Bool
  deriving DecidableEq, Repr

/-- `DtmfReceiver.__init__`. -/
def DtmfReceiver.init : DtmfReceiver := ⟨none, none, false⟩

/-- `DtmfReceiver.handle_packet`: parse the payload, reset the digit
state on a timestamp change, and fire the callback on the first
end-flagged packet of the current digit.  Returns the new state and the
list (empty or singleton) of callback invocations. -/
def DtmfReceiver.handle_packet (r : DtmfReceiver) (packet : RtpPacket) :
    Option (DtmfReceiver × List (String × Nat)) :=
  match DtmfEvent.parse packet.payload with
  | none => none
  | some ev =>
      let r1 := if r.current_timestamp ≠ some packet.timestamp then
          (⟨some ev.event, some packet.timestamp, false⟩ : DtmfReceiver) else r
      if ev.end_ ∧ ¬ r1.end_seen then
        some (⟨r1.current_event, r1.current_timestamp, true⟩,
          [(EVENT_TO_DIGIT ev.event, ev.duration)])
      else some (r1, [])

/-- Folding `handle_packet` over a packet list, accumulating callback
invocations in order. -/
def dtmfFold (r : DtmfReceiver) :
    List RtpPacket → Option (DtmfReceiver × List (String × Nat))
  | [] => some (r, [])
  | p :: ps =>
      match r.handle_packet p with
      | none => none
      | some (r1, f) =>
          match dtmfFold r1 ps with
          | none => none
          | some (r2, fs) => some (r2, f ++ fs)

/-- The end flag of a DTMF packet, read off the raw payload (matches
`DtmfEvent.parse` for well-formed payloads). -/
def pktIsEnd (p : RtpPacket) : Bool := ((p.payload.getD 1 0) &&& 128) != 0

/-- The digit string of a DTMF packet, read off the raw payload. -/
def pktDigit (p : RtpPacket) : String := EVENT_TO_DIGIT (p.payload.getD 0 0)

/-- The duration field of a DTMF packet, read off the raw payload. -/
def pktDuration (p : RtpPacket) : Nat :=
  (p.payload.getD 2 0) * 256 + p.payload.getD 3 0

/-- The maximal suffix of already-processed packets sharing the
timestamp `t` (the current digit's run), in reverse order. -/
def runRev (prev : List RtpPacket) (t : Nat) : List RtpPacket :=
  prev.reverse.takeWhile (fun q => q.timestamp == t)

/-- Spec-level firing rule: the callback fires on `p` iff `p` carries
the end flag and no earlier packet of the same contiguous
equal-timestamp run did. -/
def fireHere (prev : List RtpPacket) (p : RtpPacket) : Bool :=
  pktIsEnd p && (runRev prev p.timestamp).all (fun q => !(pktIsEnd q))

/-- Spec-level recomputation of the full callback sequence of a trace. -/
def specFires (prev : List RtpPacket) : List RtpPacket → List (String × Nat)
  | [] => []
  | p :: rest =>
      (if fireHere prev p then [(pktDigit p, pktDuration p)] else [])
        ++ specFires (prev ++ [p]) rest

/-- The coupling between the receiver state and the processed prefix:
the stored timestamp is the last packet's, and `end_seen` records
whether the current equal-timestamp run already contained an end
packet. -/
def RecvRel (r : DtmfReceiver) (prev : List RtpPacket) : Prop :=
  match prev.getLast? with
  | none => r.current_timestamp = none ∧ r.end_seen = false
  | some q => r.current_timestamp = some q.timestamp
      ∧ r.end_seen = (runRev prev q.timestamp).any pktIsEnd

/-- A DTMF end packet for digit 5, duration 1280, volume 10,
timestamp 2000 (the claim's concrete scenario), at a given sequence
number. -/
def dtmfEndPacket5 (sn : Nat) : RtpPacket :=
  { payload_type := 101, sequence_number := sn, timestamp := 2000,
    payload := [5, 138, 5, 0] }

/-- An end packet for digit 1 (timestamp 1000, duration 400). -/
def dtmfEndPacket1 (sn : Nat) : RtpPacket :=
  { payload_type := 101, sequence_number := sn, timestamp := 1000,
    payload := [1, 138, 1, 144] }

/-- An end packet for digit 2 (timestamp 2000, duration 400). -/
def dtmfEndPacket2 (sn : Nat) : RtpPacket :=
  { payload_type := 101, sequence_number := sn, timestamp := 2000,
    payload := [2, 138, 1, 144] }

/-! ## sender.py and dtmf.py — RtpSender and DtmfSender -/

/-- `RtpSender` state from `sender.py` (transport sends are modelled by
returning the constructed packets; RTP-header serialization lives in
`packet.py`, outside the analysed sources). -/
structure RtpSender where
  payload_type : Nat
  ssrc : Nat
  clock_rate : Nat
  sequence_number : Nat
  packets_sent : Nat
  octets_sent : Nat
  deriving DecidableEq, Repr

/-- `RtpSender.send_frame`: build the packet, send it, advance the
sequence number mod 2^16 and bump the counters (octets count payload
bytes only). -/
def RtpSender.send_frame (s : RtpSender) (payload : List Nat)
    (timestamp : Nat) (marker : Nat) : RtpSender × List RtpPacket :=
  ({ s with sequence_number := uint16_add s.sequence_number 1,
            packets_sent := s.packets_sent + 1,
            octets_sent := s.octets_sent + payload.length },
   [⟨s.payload_type, marker, s.sequence_number, timestamp, s.ssrc, payload⟩])

/-- The error outcomes of `DtmfSender.send_digit`: the `ValueError` for
an unknown digit, the `struct.error` when a duration overflows the
16-bit field, and non-termination of the progress loop (step 0),
surfaced as fuel exhaustion. -/
inductive DtmfError where
  | invalidDigit
  | packOverflow
  | fuelExhausted
  deriving DecidableEq, Repr

/-- The progress-packet loop of `send_digit`
(`while current_duration < duration_samples`).  Each iteration emits an
`end=false` event at the cumulative duration, advances the sequence
number, and bumps the counters by one packet / 4 payload bytes.  The
fuel passed by `send_digit` (`duration_samples + 1`) only runs out when
`step_samples = 0`, in which case the Python loop does not terminate. -/
def progressLoop (evCode vol ts pt stepS durS : Nat) :
    Nat → Nat → List RtpPacket → RtpSender →
      Except DtmfError (List RtpPacket × RtpSender)
  | 0, cur, acc, s => if cur < durS then .error .fuelExhausted else .ok (acc, s)
  | fuel + 1, cur, acc, s =>
    if cur < durS then
      match DtmfEvent.serialize ⟨evCode, false, vol, cur⟩ with
      | none => .error .packOverflow
      | some payload =>
          progressLoop evCode vol ts pt stepS durS fuel (cur + stepS)
            (acc ++ [⟨pt, 0, s.sequence_number, ts, s.ssrc, payload⟩])
            { s with sequence_number := uint16_add s.sequence_number 1,
                     packets_sent := s.packets_sent + 1,
                     octets_sent := s.octets_sent + payload.length }
    else .ok (acc, s)

/-- The `for i in range(3)` end-packet loop of `send_digit`: three
redundant `end=true` events at the full duration, marker set on the
first only. -/
def endLoop (evCode vol ts pt durS : Nat) :
    Nat → Nat → RtpSender → Except DtmfError (List RtpPacket × RtpSender)
  | 0, _, s => .ok ([], s)
  | n + 1, i, s =>
    match DtmfEvent.serialize ⟨evCode, true, vol, durS⟩ with
    | none => .error .packOverflow
    | some payload =>
        match endLoop evCode vol ts pt durS n (i + 1)
            { s with sequence_number := uint16_add s.sequence_number 1,
                     packets_sent := s.packets_sent + 1,
                     octets_sent := s.octets_sent + payload.length } with
        | .error e => .error e
        | .ok (rest, s2) =>
            .ok (⟨pt, if i == 0 then 1 else 0, s.sequence_number, ts, s.ssrc,
                  payload⟩ :: rest, s2)

/-- `DtmfSender.send_digit` from `dtmf.py`: validate the digit (after
Python's `.upper()`), compute `duration_samples` and `step_samples`,
emit the progress packets and then the three end packets.  All packets
share the starting RTP timestamp. -/
def DtmfSender.send_digit (digit : Char) (duration_ms vol ts pt clock_rate : Nat)
    (s : RtpSender) : Except DtmfError (List RtpPacket × RtpSender) :=
  match dtmf_event_code (pyUpper digit.toNat) with
  | none => .error .invalidDigit
  | some evCode =>
      let duration_samples := duration_ms * clock_rate / 1000
      let step_samples := 20 * clock_rate / 1000
      match progressLoop evCode vol ts pt step_samples duration_samples
          (duration_samples + 1) step_samples [] s with
      | .error e => .error e
      | .ok (progress, s1) =>
          match endLoop evCode vol ts pt duration_samples 3 0 s1 with
          | .error e => .error e
          | .ok (ends, s2) => .ok (progress ++ ends, s2)

/-- Advancing a sender by `n` DTMF packets: sequence number +1 mod 2^16,
one packet and 4 payload octets per step. -/
def senderAdvance (s : RtpSender) : Nat → RtpSender
  | 0 => s
  | n + 1 => senderAdvance
      { s with sequence_number := uint16_add s.sequence_number 1,
               packets_sent := s.packets_sent + 1,
               octets_sent := s.octets_sent + 4 } n

/-- The serialized payload of a DTMF end packet. -/
def endPayload (evCode vol durS : Nat) : List Nat :=
  [evCode, 128 ||| (vol &&& 63), durS / 256, durS % 256]

/-! ## session.py — send guards -/

/-- The slice of `RTPSession` state that the send guards read: the
closed flag, the sender (present after `create`), and the DTMF
parameters. -/
structure RTPSession where
  closed : Bool
  sender : Option RtpSender
  dtmf_payload_type : Nat
  clock_rate : Nat
  deriving DecidableEq, Repr

/-- `RTPSession.send_audio`: silently dropped when no sender exists or
the session is closed; otherwise delegates to `RtpSender.send_frame`. -/
def RTPSession.send_audio (sess : RTPSession) (payload : List Nat)
    (timestamp : Nat) : RTPSession × List RtpPacket :=
  match sess.sender with
  | none => (sess, [])
  | some sd =>
      if sess.closed then (sess, [])
      else
        let r := sd.send_frame payload timestamp 0
        ({ sess with sender := some r.1 }, r.2)

/-- `RTPSession.send_dtmf`: silently dropped when no DTMF sender exists
or the session is closed; otherwise delegates to
`DtmfSender.send_digit` (whose `InvalidDtmfDigit` error propagates to
the caller). -/
def RTPSession.send_dtmf (sess : RTPSession) (digit : Char)
    (duration_ms timestamp : Nat) :
    Except DtmfError (RTPSession × List RtpPacket) :=
  match sess.sender with
  | none => .ok (sess, [])
  | some sd =>
      if sess.closed then .ok (sess, [])
      else
        match DtmfSender.send_digit digit duration_ms 10 timestamp
            sess.dtmf_payload_type sess.clock_rate sd with
        | .error e => .error e
        | .ok (pkts, sd2) => .ok ({ sess with sender := some sd2 }, pkts)

/-- A sample closed session used as the witness input. -/
def closedSession : RTPSession := ⟨true, some ⟨0, 7, 8000, 100, 2, 3⟩, 101, 8000⟩

/-- The code points of the DTMF digit characters, in either letter
case: 0-9, `*`, `#`, A-D, a-d. -/
def dtmfDigitCodes : List Nat :=
  [48, 49, 50, 51, 52, 53, 54, 55, 56, 57, 42, 35, 65, 66, 67, 68,
   97, 98, 99, 100]

lemma mdist_lt (a b : Nat) : mdist a b < 65536 := by
  simp only [mdist]
  omega

lemma uint16_gt_iff (a b : Nat) :
    uint16_gt a b = true ↔ 0 < mdist a b ∧ mdist a b < 32768 := by
  simp [uint16_gt]

lemma uint16_add_one (a : Nat) : uint16_add a 1 = (a + 1) % 65536 := by
  simp only [uint16_add]
  omega

lemma mdist_self (a : Nat) : mdist a a = 0 := by
  simp only [mdist]
  omega

/-- Stepping the lower argument forward by one (mod `2^16`) decreases the
modular distance by one, as long as it was positive. -/
lemma mdist_succ (a b : Nat) (h : 0 < mdist a b) :
    mdist a ((b + 1) % 65536) = mdist a b - 1 := by
  simp only [mdist] at *
  omega

lemma is_stun_length {data : List Nat} (h : is_stun data = true) :
    20 ≤ data.length := by
  simp only [is_stun, Bool.and_eq_true, decide_eq_true_eq] at h
  exact h.1.1

lemma txn_id_length {data : List Nat} (h : 20 ≤ data.length) :
    ((data.drop 8).take 12).length = 12 := by
  simp only [List.length_take, List.length_drop]
  omega

/-- C1, counterexample: on the STUN datagram of message type 0x0101 the
transport does send a reply, so "a reply iff the message type is Binding
Request (0x0001)" is false on the code. -/
theorem stun_reply_to_non_request :
    is_stun stunOtherTypeDatagram = true
    ∧ stun_msg_type stunOtherTypeDatagram ≠ 0x0001
    ∧ datagram_received stunOtherTypeDatagram 2130706433 4000 =
        .stun_reply (stun_binding_response stunOtherTypeDatagram 2130706433 4000)
          2130706433 4000 := by
  refine ⟨by decide, by decide, by decide⟩

/-- C1, amended: for a datagram passing the STUN test, the transport
replies iff byte 1 of the datagram is 0x01 (true of a Binding Request
0x0001, but also of any STUN message type with low byte 0x01); the reply
is a Binding Success (0x0101) echoing the transaction ID (bytes 8..20 of
the request) with a single XOR-MAPPED-ADDRESS attribute carrying
`port XOR 0x2112` and `address XOR 0x2112A442` (big-endian, faithfully
since both XOR values stay in range); all other STUN datagrams are
dropped, and no STUN datagram reaches the RTP or RTCP handlers. -/
theorem stun_handling_characterization (data : List Nat) (ip port : Nat)
    (hstun : is_stun data = true) (hip : ip < 4294967296) (hport : port < 65536) :
    (datagram_received data ip port =
        .stun_reply (stun_binding_response data ip port) ip port
      ↔ data.getD 1 0 = 0x01)
    ∧ (data.getD 1 0 ≠ 0x01 → datagram_received data ip port = .stun_drop)
    ∧ datagram_received data ip port ≠ .rtcp_in
    ∧ datagram_received data ip port ≠ .rtp_in
    ∧ stun_binding_response data ip port
        = [0x01, 0x01, 0x00, 0x0C, 0x21, 0x12, 0xA4, 0x42]
            ++ (data.drop 8).take 12
            ++ ([0x00, 0x20, 0x00, 0x08, 0x00, 0x01]
                ++ (be16 (port ^^^ 0x2112) ++ be32 (ip ^^^ 0x2112A442)))
    ∧ ((data.drop 8).take 12).length = 12
    ∧ port ^^^ 0x2112 < 65536
    ∧ ip ^^^ 0x2112A442 < 4294967296
    ∧ stun_msg_type (stun_binding_response data ip port) = 0x0101 := by
  have hlen : 20 ≤ data.length := is_stun_length hstun
  have htxn : ((data.drop 8).take 12).length = 12 := txn_id_length hlen
  have hxport : port ^^^ 0x2112 < 65536 := by
    have h : port ^^^ 0x2112 < 2 ^ 16 :=
      Nat.xor_lt_two_pow (by omega) (by norm_num)
    omega
  have hxaddr : ip ^^^ 0x2112A442 < 4294967296 := by
    have h : ip ^^^ 0x2112A442 < 2 ^ 32 :=
      Nat.xor_lt_two_pow (by omega) (by norm_num)
    omega
  have hc1 : data.getD 1 0 = 0x01 →
      (decide (20 ≤ data.length) && (data.getD 1 0 == 0x01)) = true := by
    intro h
    rw [h]
    simp [hlen]
  have hc2 : data.getD 1 0 ≠ 0x01 →
      (decide (20 ≤ data.length) && (data.getD 1 0 == 0x01)) = false := by
    intro h
    rw [show (data.getD 1 0 == 0x01) = false from beq_eq_false_iff_ne.mpr h]
    simp
  have hresp : stun_binding_response data ip port
      = [0x01, 0x01, 0x00, 0x0C, 0x21, 0x12, 0xA4, 0x42]
          ++ (data.drop 8).take 12
          ++ ([0x00, 0x20, 0x00, 0x08, 0x00, 0x01]
              ++ (be16 (port ^^^ 0x2112) ++ be32 (ip ^^^ 0x2112A442))) := by
    simp [stun_binding_response, be16, be32, STUN_MAGIC]
  refine ⟨?_, ?_, ?_, ?_, hresp, htxn, hxport, hxaddr, ?_⟩
  · constructor
    · intro h
      by_contra hne
      simp only [datagram_received] at h
      rw [if_pos hstun, if_neg (by rw [hc2 hne]; simp)] at h
      exact absurd h (by simp)
    · intro h
      simp only [datagram_received]
      rw [if_pos hstun, if_pos (hc1 h)]
  · intro hne
    simp only [datagram_received]
    rw [if_pos hstun, if_neg (by rw [hc2 hne]; simp)]
  · simp only [datagram_received]
    rw [if_pos hstun]
    split <;> simp
  · simp only [datagram_received]
    rw [if_pos hstun]
    split <;> simp
  · rw [hresp]
    simp [stun_msg_type]

/-- Witness for `stun_handling_characterization` at a concrete Binding
Request datagram. -/
theorem stun_handling_characterization_witness :
    is_stun stunBindingRequestDatagram = true
    ∧ (2130706433 : Nat) < 4294967296 ∧ (4000 : Nat) < 65536
    ∧ datagram_received stunBindingRequestDatagram 2130706433 4000 =
        .stun_reply (stun_binding_response stunBindingRequestDatagram 2130706433 4000)
          2130706433 4000 :=
  ⟨by decide, by decide, by decide,
    (stun_handling_characterization stunBindingRequestDatagram 2130706433 4000
      (by decide) (by decide) (by decide)).1.mpr (by decide)⟩

lemma mem_intervening {m t u : Nat} :
    u ∈ intervening m t ↔
      u < 65536 ∧ uint16_gt t u = true ∧ uint16_gt u m = true := by
  simp [intervening, Finset.mem_filter, Finset.mem_range]

lemma nackFill_spec (target : Nat) :
    ∀ fuel seq missing missed, seq < 65536 →
      mdist target seq ≤ fuel → mdist target seq < 32768 →
      nackFill target fuel seq missing missed
        = (missing ∪ (Finset.range (mdist target seq)).image
              (fun j => (seq + j) % 65536),
           missed || decide (0 < mdist target seq)) := by
  intro fuel
  induction fuel with
  | zero =>
    intro seq missing missed _ hfuel _
    have hd : mdist target seq = 0 := by omega
    simp [nackFill, hd]
  | succ fuel ih =>
    intro seq missing missed hseq hfuel hlt
    by_cases hgt : uint16_gt target seq = true
    · have hd : 0 < mdist target seq := ((uint16_gt_iff _ _).mp hgt).1
      have hstep : uint16_add seq 1 = (seq + 1) % 65536 := uint16_add_one seq
      have hd' : mdist target ((seq + 1) % 65536) = mdist target seq - 1 :=
        mdist_succ target seq hd
      have hrec := ih ((seq + 1) % 65536) (insert seq missing) true
        (Nat.mod_lt _ (by norm_num)) (by omega) (by omega)
      rw [hd'] at hrec
      simp only [nackFill, hgt, if_true, hstep, hrec, Prod.mk.injEq]
      constructor
      · ext t
        simp only [Finset.mem_union, Finset.mem_insert, Finset.mem_image,
          Finset.mem_range]
        constructor
        · rintro ((rfl | ht) | ⟨j, hj, rfl⟩)
          · exact Or.inr ⟨0, by omega, by omega⟩
          · exact Or.inl ht
          · exact Or.inr ⟨j + 1, by omega, by omega⟩
        · rintro (ht | ⟨j, hj, rfl⟩)
          · exact Or.inl (Or.inr ht)
          · cases j with
            | zero => exact Or.inl (Or.inl (by omega))
            | succ k => exact Or.inr ⟨k, by omega, by omega⟩
      · simp [hd]
    · have hd : mdist target seq = 0 := by
        have := (uint16_gt_iff target seq).not.mp (by simp [hgt])
        omega
      simp [nackFill, hgt, hd]

lemma truncate_max_seq (g : NackGenerator) :
    g.truncate.max_seq = g.max_seq := by
  rcases h : g.max_seq with _ | m <;> simp [NackGenerator.truncate, h]

lemma truncate_missing (g : NackGenerator) (m : Nat) (hm : g.max_seq = some m) :
    g.truncate.missing = g.missing.filter
      (fun s => uint16_gt (uint16_add m (-(RTP_HISTORY_SIZE : Int))) s = false) := by
  simp [NackGenerator.truncate, hm]

/-- With the new maximum `t` in range, the insertion loop of `add` fills
in exactly the sequences strictly between the old maximum and `t`. -/
lemma fill_image_eq_intervening (m t : Nat) (hm : m < 65536) (ht : t < 65536)
    (hgt : uint16_gt t m = true) :
    (Finset.range (mdist t m - 1)).image (fun j => ((m + 1) % 65536 + j) % 65536)
      = intervening m t := by
  have hd := (uint16_gt_iff t m).mp hgt
  ext u
  simp only [Finset.mem_image, Finset.mem_range, mem_intervening, uint16_gt_iff]
  constructor
  · rintro ⟨j, hj, rfl⟩
    refine ⟨by omega, ⟨?_, ?_⟩, ⟨?_, ?_⟩⟩ <;>
      simp only [mdist] at * <;> omega
  · rintro ⟨hu, ⟨htu1, htu2⟩, ⟨hum1, hum2⟩⟩
    refine ⟨mdist u m - 1, ?_, ?_⟩ <;> simp only [mdist] at * <;> omega

lemma add_of_none (g : NackGenerator) (p : RtpPacket) (hm : g.max_seq = none) :
    g.add p = ({ g with max_seq := some p.sequence_number }, false) := by
  simp [NackGenerator.add, hm]

lemma add_of_not_gt (g : NackGenerator) (p : RtpPacket) (m : Nat)
    (hm : g.max_seq = some m)
    (hgt : uint16_gt p.sequence_number m = false) :
    g.add p = (NackGenerator.truncate
        ⟨some m, g.missing.erase p.sequence_number⟩, false) := by
  simp [NackGenerator.add, hm, hgt]

lemma add_of_gt (g : NackGenerator) (p : RtpPacket) (m : Nat)
    (hm : g.max_seq = some m) (hmlt : m < 65536)
    (hp : p.sequence_number < 65536)
    (hgt : uint16_gt p.sequence_number m = true) :
    g.add p = (NackGenerator.truncate
        ⟨some p.sequence_number, g.missing ∪ intervening m p.sequence_number⟩,
      decide (1 < mdist p.sequence_number m)) := by
  have hd := (uint16_gt_iff _ _).mp hgt
  have hstep : uint16_add m 1 = (m + 1) % 65536 := uint16_add_one m
  have hfill := nackFill_spec p.sequence_number 65536 ((m + 1) % 65536)
    g.missing false (Nat.mod_lt _ (by norm_num))
    (by have := mdist_lt p.sequence_number ((m + 1) % 65536); omega)
    (by have := mdist_succ p.sequence_number m hd.1; omega)
  have hd' : mdist p.sequence_number ((m + 1) % 65536)
      = mdist p.sequence_number m - 1 := mdist_succ p.sequence_number m hd.1
  rw [hd'] at hfill
  simp only [NackGenerator.add, hm, hgt, if_true, hstep, hfill,
    fill_image_eq_intervening m p.sequence_number hmlt hp hgt, Prod.mk.injEq]
  refine ⟨trivial, ?_⟩
  simp only [Bool.false_or]
  exact decide_eq_decide.mpr (by omega)

lemma mdist_triangle (a b c : Nat) :
    mdist a c = (mdist a b + mdist b c) % 65536 := by
  simp only [mdist]
  omega

/-- The retention predicate of `truncate`, decoded: a sequence `s` is
kept iff its modular distance behind `t` is at most 2000 (the genuine
window) or at least 34768 (a vacuous case: by the invariant, nothing
that far away is ever in the set). -/
lemma keep_iff (t s : Nat) (ht : t < 65536) (hs : s < 65536) :
    (uint16_gt (uint16_add t (-(RTP_HISTORY_SIZE : Int))) s = false)
      ↔ (mdist t s ≤ 2000 ∨ 34768 ≤ mdist t s) := by
  simp only [uint16_gt, uint16_add, mdist, RTP_HISTORY_SIZE,
    decide_eq_false_iff_not, not_and, not_lt]
  omega

lemma nackInv_init : NackInv NackGenerator.init := by
  refine ⟨?_, ?_, ?_⟩ <;> simp [NackGenerator.init]

lemma nackInv_add (g : NackGenerator) (p : RtpPacket) (hg : NackInv g)
    (hp : p.sequence_number < 65536) : NackInv (g.add p).1 := by
  obtain ⟨h1, h2, h3⟩ := hg
  rcases hmax : g.max_seq with _ | m
  · rw [add_of_none g p hmax]
    refine ⟨?_, ?_, ?_⟩
    · intro m hm
      simp only [Option.some.injEq] at hm
      omega
    · simp
    · intro s hs
      rw [h2 hmax] at hs
      exact absurd hs (by simp)
  · have hmlt : m < 65536 := h1 m hmax
    by_cases hgt : uint16_gt p.sequence_number m = true
    · rw [add_of_gt g p m hmax hmlt hp hgt]
      have hdm := (uint16_gt_iff _ _).mp hgt
      refine ⟨?_, ?_, ?_⟩
      · intro m' hm'
        rw [truncate_max_seq] at hm'
        simp only [Option.some.injEq] at hm'
        omega
      · intro hnone
        rw [truncate_max_seq] at hnone
        exact absurd hnone (by simp)
      · intro s hs
        rw [truncate_missing _ p.sequence_number rfl, Finset.mem_filter] at hs
        obtain ⟨hmem, hkeep⟩ := hs
        have hs16 : s < 65536 := by
          rcases Finset.mem_union.mp hmem with hold | hnew
          · exact (h3 s hold).1
          · exact (mem_intervening.mp hnew).1
        have hnear : mdist p.sequence_number s < 34768 := by
          rcases Finset.mem_union.mp hmem with hold | hnew
          · have hbound := (h3 s hold).2 m hmax
            have htri := mdist_triangle p.sequence_number m s
            have := mdist_lt p.sequence_number m
            omega
          · have := ((uint16_gt_iff _ _).mp (mem_intervening.mp hnew).2.1).2
            omega
        have := (keep_iff p.sequence_number s hp hs16).mp hkeep
        refine ⟨hs16, ?_⟩
        intro m' hm'
        rw [truncate_max_seq] at hm'
        simp only [Option.some.injEq] at hm'
        subst hm'
        omega
    · have hgt' : uint16_gt p.sequence_number m = false := by
        revert hgt
        cases uint16_gt p.sequence_number m <;> simp
      rw [add_of_not_gt g p m hmax hgt']
      refine ⟨?_, ?_, ?_⟩
      · intro m' hm'
        rw [truncate_max_seq] at hm'
        simp only [Option.some.injEq] at hm'
        omega
      · intro hnone
        rw [truncate_max_seq] at hnone
        exact absurd hnone (by simp)
      · intro s hs
        rw [truncate_missing _ m rfl, Finset.mem_filter] at hs
        have hold : s ∈ g.missing := Finset.mem_of_mem_erase hs.1
        refine ⟨(h3 s hold).1, ?_⟩
        intro m' hm'
        rw [truncate_max_seq] at hm'
        simp only [Option.some.injEq] at hm'
        subst hm'
        exact (h3 s hold).2 m hmax

lemma nackFold_inv :
    ∀ (ps : List RtpPacket) (g : NackGenerator), NackInv g →
      (∀ p ∈ ps, p.sequence_number < 65536) → NackInv (nackFold g ps) := by
  intro ps
  induction ps with
  | nil => intro g hg _; exact hg
  | cons p ps ih =>
    intro g hg hps
    exact ih (g.add p).1 (nackInv_add g p hg (hps p (by simp)))
      (fun q hq => hps q (by simp [hq]))

/-- C2, counterexample: after adding packets 0 and 3000, sequence 1000
is retained in the missing set although it is 2000 (not at most 1999)
behind `max_seq = 3000` in 16-bit modular order. -/
theorem nack_retains_sequence_2000_behind :
    (nackFold NackGenerator.init
        [{ sequence_number := 0 }, { sequence_number := 3000 }]).max_seq = some 3000
    ∧ 1000 ∈ (nackFold NackGenerator.init
        [{ sequence_number := 0 }, { sequence_number := 3000 }]).missing
    ∧ ¬ mdist 3000 1000 ≤ 1999 := by
  have hstep0 : (NackGenerator.add NackGenerator.init { sequence_number := 0 }).1
      = (⟨some 0, ∅⟩ : NackGenerator) := rfl
  have hstep1 := add_of_gt (⟨some 0, ∅⟩ : NackGenerator)
    { sequence_number := 3000 } 0 rfl (by norm_num) (by norm_num) (by decide)
  have hfold : nackFold NackGenerator.init
      [{ sequence_number := 0 }, { sequence_number := 3000 }]
      = (NackGenerator.truncate ⟨some 3000, ∅ ∪ intervening 0 3000⟩) := by
    simp only [nackFold, hstep0, hstep1]
  refine ⟨?_, ?_, by decide⟩
  · rw [hfold, truncate_max_seq]
  · rw [hfold, truncate_missing _ 3000 rfl, Finset.mem_filter]
    refine ⟨Finset.mem_union.mpr (Or.inr (mem_intervening.mpr
      ⟨by norm_num, by decide, by decide⟩)), by decide⟩

/-- C2, amended: after every sequence of `add` calls, every sequence
retained in the missing set lies within the 16-bit modular window
`[max_seq - RTP_HISTORY_SIZE, max_seq]`, i.e. no retained missing
sequence is more than 2000 behind `max_seq` (the code's window is one
wider than the `[max_seq - 1999, max_seq]` the claim states). -/
theorem nack_missing_window (ps : List RtpPacket)
    (hps : ∀ p ∈ ps, p.sequence_number < 65536) (s : Nat)
    (hs : s ∈ (nackFold NackGenerator.init ps).missing) :
    ∃ m, (nackFold NackGenerator.init ps).max_seq = some m ∧ mdist m s ≤ 2000 := by
  obtain ⟨h1, h2, h3⟩ := nackFold_inv ps NackGenerator.init nackInv_init hps
  rcases hmax : (nackFold NackGenerator.init ps).max_seq with _ | m
  · rw [h2 hmax] at hs
    exact absurd hs (by simp)
  · exact ⟨m, rfl, (h3 s hs).2 m hmax⟩

/-- Witness for `nack_missing_window` on the trace 0, 5 with the
retained missing sequence 1. -/
theorem nack_missing_window_witness :
    (∀ p ∈ [({ sequence_number := 0 } : RtpPacket), { sequence_number := 5 }],
      p.sequence_number < 65536)
    ∧ 1 ∈ (nackFold NackGenerator.init
        [{ sequence_number := 0 }, { sequence_number := 5 }]).missing
    ∧ ∃ m, (nackFold NackGenerator.init
        [{ sequence_number := 0 }, { sequence_number := 5 }]).max_seq = some m
        ∧ mdist m 1 ≤ 2000 :=
  ⟨by decide, by decide,
    nack_missing_window [{ sequence_number := 0 }, { sequence_number := 5 }]
      (by decide) 1 (by decide)⟩

/-- C4: `add` returns true iff the packet newly created missing
sequences: with `max_seq = m` and a 16-bit-greater sequence `t`, the new
missing set is the old one united with every sequence strictly between
`m` and `t` in modular order (then truncated), `max_seq` advances to
`t`, and the return value is true exactly when that intervening set is
nonempty; with a not-greater sequence, it is removed from the set (then
truncated), `max_seq` stays, and `add` returns false.  Concretely,
adding 65534, 65535, 1 leaves missing `{0}` (the third add returning
true), and then adding 0 empties it (returning false). -/
theorem nack_add_spec :
    (∀ (g : NackGenerator) (p : RtpPacket) (m : Nat),
        g.max_seq = some m → m < 65536 → p.sequence_number < 65536 →
        uint16_gt p.sequence_number m = true →
        (g.add p).1.max_seq = some p.sequence_number
        ∧ (g.add p).1.missing
            = ((g.missing ∪ intervening m p.sequence_number).filter
                (fun s =>
                  uint16_gt (uint16_add p.sequence_number (-(RTP_HISTORY_SIZE : Int))) s
                    = false))
        ∧ ((g.add p).2 = true ↔ (intervening m p.sequence_number).Nonempty))
    ∧ (∀ (g : NackGenerator) (p : RtpPacket) (m : Nat),
        g.max_seq = some m →
        uint16_gt p.sequence_number m = false →
        (g.add p).1.max_seq = some m
        ∧ (g.add p).1.missing
            = ((g.missing.erase p.sequence_number).filter
                (fun s => uint16_gt (uint16_add m (-(RTP_HISTORY_SIZE : Int))) s = false))
        ∧ (g.add p).2 = false)
    ∧ (nackFold NackGenerator.init
        [{ sequence_number := 65534 }, { sequence_number := 65535 },
         { sequence_number := 1 }]).missing = {0}
    ∧ ((nackFold NackGenerator.init
        [{ sequence_number := 65534 }, { sequence_number := 65535 }]).add
          { sequence_number := 1 }).2 = true
    ∧ (nackFold NackGenerator.init
        [{ sequence_number := 65534 }, { sequence_number := 65535 },
         { sequence_number := 1 }, { sequence_number := 0 }]).missing = ∅
    ∧ ((nackFold NackGenerator.init
        [{ sequence_number := 65534 }, { sequence_number := 65535 },
         { sequence_number := 1 }]).add { sequence_number := 0 }).2 = false := by
  refine ⟨?_, ?_, by decide, by decide, by decide, by decide⟩
  · intro g p m hm hmlt hp hgt
    rw [add_of_gt g p m hm hmlt hp hgt]
    refine ⟨truncate_max_seq _, truncate_missing _ _ rfl, ?_⟩
    have hd := (uint16_gt_iff _ _).mp hgt
    rw [← fill_image_eq_intervening m p.sequence_number hmlt hp hgt]
    simp only [decide_eq_true_eq, Finset.image_nonempty, Finset.nonempty_range_iff]
    omega
  · intro g p m hm hgt
    rw [add_of_not_gt g p m hm hgt]
    exact ⟨truncate_max_seq _, truncate_missing _ _ rfl, rfl⟩

/-- Witness for `nack_add_spec` at the state `max_seq = 10`,
`missing = ∅` and an incoming packet with sequence 13. -/
theorem nack_add_spec_witness :
    (⟨some 10, ∅⟩ : NackGenerator).max_seq = some 10
    ∧ uint16_gt 13 10 = true
    ∧ ((⟨some 10, ∅⟩ : NackGenerator).add { sequence_number := 13 }).1.max_seq
        = some 13 :=
  ⟨rfl, by decide,
    (nack_add_spec.1 (⟨some 10, ∅⟩ : NackGenerator) { sequence_number := 13 } 10
      rfl (by norm_num) (by norm_num) (by decide)).1⟩

lemma cycleUpdate_base_seq (st : StreamStatistics) (p : RtpPacket) :
    (cycleUpdate st p).base_seq = st.base_seq := by
  unfold cycleUpdate
  rcases st.max_seq <;> dsimp <;> split <;> rfl

lemma cycleUpdate_received (st : StreamStatistics) (p : RtpPacket) :
    (cycleUpdate st p).packets_received = st.packets_received := by
  unfold cycleUpdate
  rcases st.max_seq <;> dsimp <;> split <;> rfl

lemma cycleUpdate_jitter (st : StreamStatistics) (p : RtpPacket) :
    (cycleUpdate st p).jitter_q4 = st.jitter_q4 := by
  unfold cycleUpdate
  rcases st.max_seq <;> dsimp <;> split <;> rfl

lemma cycleUpdate_max_seq (st : StreamStatistics) (p : RtpPacket) :
    (cycleUpdate st p).max_seq = some p.sequence_number := by
  unfold cycleUpdate
  rcases st.max_seq <;> dsimp <;> split <;> rfl

lemma jitterUpdate_base_seq (st : StreamStatistics) (p : RtpPacket) (a : Int) :
    (jitterUpdate st p a).base_seq = st.base_seq := by
  unfold jitterUpdate
  split <;> rfl

lemma jitterUpdate_max_seq (st : StreamStatistics) (p : RtpPacket) (a : Int) :
    (jitterUpdate st p a).max_seq = st.max_seq := by
  unfold jitterUpdate
  split <;> rfl

lemma jitterUpdate_cycles (st : StreamStatistics) (p : RtpPacket) (a : Int) :
    (jitterUpdate st p a).cycles = st.cycles := by
  unfold jitterUpdate
  split <;> rfl

lemma jitterUpdate_received (st : StreamStatistics) (p : RtpPacket) (a : Int) :
    (jitterUpdate st p a).packets_received = st.packets_received := by
  unfold jitterUpdate
  split <;> rfl

lemma cycleUpdate_cycles (st : StreamStatistics) (p : RtpPacket) (m : Nat)
    (hm : st.max_seq = some m) :
    (cycleUpdate st p).cycles
      = if p.sequence_number < m then st.cycles + 65536 else st.cycles := by
  unfold cycleUpdate
  rw [hm]
  dsimp only
  split <;> rfl

lemma jitterUpdate_nonneg (st : StreamStatistics) (p : RtpPacket) (a : Int)
    (h : 0 ≤ st.jitter_q4) : 0 ≤ (jitterUpdate st p a).jitter_q4 := by
  unfold jitterUpdate
  split
  · dsimp only
    have habs : 0 ≤ |(a - st.last_arrival.getD 0) -
        ((p.timestamp : Int) - st.last_timestamp.getD 0)| := abs_nonneg _
    have hfd : Int.fdiv (st.jitter_q4 + 8) 16 = (st.jitter_q4 + 8) / 16 :=
      Int.fdiv_eq_ediv _ (by norm_num)
    rw [hfd]
    omega
  · exact h

lemma add_jitter_nonneg (st : StreamStatistics) (p : RtpPacket) (a : Int)
    (h : 0 ≤ st.jitter_q4) : 0 ≤ (st.add p a).jitter_q4 := by
  unfold StreamStatistics.add
  dsimp only
  split
  · have h2 : 0 ≤ (cycleUpdate
        (match st.base_seq with
          | none => { st with packets_received := st.packets_received + 1,
                              base_seq := some p.sequence_number }
          | some _ => { st with packets_received := st.packets_received + 1 })
        p).jitter_q4 := by
      rw [cycleUpdate_jitter]
      rcases st.base_seq <;> exact h
    exact jitterUpdate_nonneg _ p a h2
  · rcases st.base_seq <;> exact h

/-- C10: along every trace of `add` calls (arbitrary packets and
arrival clock values), the Q4 jitter accumulator stays non-negative, and
so does the public `jitter` value. -/
theorem jitter_nonneg (cr : Nat) (L : List (RtpPacket × Int)) :
    0 ≤ (statsFold (StreamStatistics.init cr) L).jitter_q4
    ∧ 0 ≤ (statsFold (StreamStatistics.init cr) L).jitter := by
  have main : ∀ (M : List (RtpPacket × Int)) (st : StreamStatistics),
      0 ≤ st.jitter_q4 → 0 ≤ (statsFold st M).jitter_q4 := by
    intro M
    induction M with
    | nil => intro st h; exact h
    | cons pa rest ih =>
      intro st h
      exact ih (st.add pa.1 pa.2) (add_jitter_nonneg st pa.1 pa.2 h)
  have h1 : 0 ≤ (statsFold (StreamStatistics.init cr) L).jitter_q4 :=
    main L (StreamStatistics.init cr) (by norm_num [StreamStatistics.init])
  refine ⟨h1, ?_⟩
  unfold StreamStatistics.jitter
  rw [Int.fdiv_eq_ediv _ (by norm_num)]
  omega

lemma add_gt_proj (st : StreamStatistics) (p : RtpPacket) (a : Int) (m b : Nat)
    (hmax : st.max_seq = some m) (hb : st.base_seq = some b)
    (hgt : uint16_gt p.sequence_number m = true) :
    (st.add p a).base_seq = some b
    ∧ (st.add p a).packets_received = st.packets_received + 1
    ∧ (st.add p a).max_seq = some p.sequence_number
    ∧ (st.add p a).cycles
        = (if p.sequence_number < m then st.cycles + 65536 else st.cycles) := by
  simp only [StreamStatistics.add, hmax, hb, hgt, if_true]
  exact ⟨by rw [jitterUpdate_base_seq, cycleUpdate_base_seq],
    by rw [jitterUpdate_received, cycleUpdate_received],
    by rw [jitterUpdate_max_seq, cycleUpdate_max_seq],
    by rw [jitterUpdate_cycles, cycleUpdate_cycles _ p m (by rfl)]⟩

lemma add_first_proj (cr : Nat) (p : RtpPacket) (a : Int) :
    ((StreamStatistics.init cr).add p a).base_seq = some p.sequence_number
    ∧ ((StreamStatistics.init cr).add p a).max_seq = some p.sequence_number
    ∧ ((StreamStatistics.init cr).add p a).packets_received = 1
    ∧ ((StreamStatistics.init cr).add p a).cycles = 0 := by
  simp [StreamStatistics.add, StreamStatistics.init, cycleUpdate, jitterUpdate]

lemma uint16_gt_succ (m : Nat) (hm : m < 65536) :
    uint16_gt ((m + 1) % 65536) m = true := by
  rw [uint16_gt_iff]
  simp only [mdist]
  omega

lemma add_consec (st : StreamStatistics) (p : RtpPacket) (a : Int) (b k mx : Nat)
    (hb : st.base_seq = some b) (hk : st.packets_received = k)
    (hmax : st.max_seq = some mx) (hmlt : mx < 65536)
    (hseq : p.sequence_number = (mx + 1) % 65536) :
    (st.add p a).base_seq = some b
    ∧ (st.add p a).packets_received = k + 1
    ∧ (st.add p a).max_seq = some ((mx + 1) % 65536)
    ∧ ((st.add p a).cycles : Int) + (((mx + 1) % 65536 : Nat) : Int)
        = (st.cycles : Int) + mx + 1 := by
  have hgt : uint16_gt p.sequence_number mx = true := by
    rw [hseq]
    exact uint16_gt_succ mx hmlt
  obtain ⟨h1, h2, h3, h4⟩ := add_gt_proj st p a mx b hmax hb hgt
  refine ⟨h1, by omega, by rw [h3, hseq], ?_⟩
  rw [h4, hseq]
  by_cases hwrap : (mx + 1) % 65536 < mx
  · rw [if_pos hwrap]
    push_cast
    omega
  · rw [if_neg hwrap]
    push_cast
    omega

lemma consec_fold :
    ∀ (L : List (RtpPacket × Int)) (st : StreamStatistics) (b k mx : Nat),
      st.base_seq = some b → st.packets_received = k →
      st.max_seq = some mx → mx < 65536 →
      ((st.cycles : Int) + mx = (b : Int) + k - 1) →
      (∀ i (h : i < L.length),
        (L.get ⟨i, h⟩).1.sequence_number = (mx + 1 + i) % 65536) →
      (statsFold st L).base_seq = some b
      ∧ (statsFold st L).packets_received = k + L.length
      ∧ ∃ mx', (statsFold st L).max_seq = some mx' ∧ mx' < 65536
          ∧ ((statsFold st L).cycles : Int) + mx'
              = (b : Int) + (k + L.length) - 1 := by
  intro L
  induction L with
  | nil =>
    intro st b k mx hb hk hmax hmlt hcy _
    exact ⟨hb, by simpa [statsFold] using hk,
      mx, by simpa [statsFold] using hmax, hmlt, by simp [statsFold]; omega⟩
  | cons pa rest ih =>
    intro st b k mx hb hk hmax hmlt hcy hidx
    have hseq0 : pa.1.sequence_number = (mx + 1) % 65536 := by
      have := hidx 0 (by simp)
      simpa using this
    obtain ⟨g1, g2, g3, g4⟩ :=
      add_consec st pa.1 pa.2 b k mx hb hk hmax hmlt hseq0
    have hfold : statsFold st (pa :: rest) = statsFold (st.add pa.1 pa.2) rest := by
      rcases pa with ⟨p, a⟩
      rfl
    have hidx' : ∀ i (h : i < rest.length),
        (rest.get ⟨i, h⟩).1.sequence_number = ((mx + 1) % 65536 + 1 + i) % 65536 := by
      intro i h
      have := hidx (i + 1) (by simpa using Nat.succ_lt_succ h)
      simp only [List.get_cons_succ] at this
      rw [this]
      omega
    obtain ⟨r1, r2, mx', r3, r4, r5⟩ := ih (st.add pa.1 pa.2) b (k + 1)
      ((mx + 1) % 65536) g1 g2 g3 (Nat.mod_lt _ (by norm_num))
      (by omega) hidx'
    refine ⟨by rw [hfold]; exact r1, by rw [hfold, r2]; simp; omega,
      mx', by rw [hfold]; exact r3, r4, by rw [hfold]; rw [r5]; simp; omega⟩

lemma add_base_isSome (st : StreamStatistics) (p : RtpPacket) (a : Int) :
    (st.add p a).base_seq.isSome = true := by
  unfold StreamStatistics.add
  dsimp only
  rcases hb : st.base_seq with _ | b <;>
    [skip; skip] <;>
    split <;>
    simp [jitterUpdate_base_seq, cycleUpdate_base_seq, hb]

lemma add_max_isSome (st : StreamStatistics) (p : RtpPacket) (a : Int) :
    (st.add p a).max_seq.isSome = true := by
  unfold StreamStatistics.add
  dsimp only
  rcases hm : st.max_seq with _ | m
  · simp [jitterUpdate_max_seq, cycleUpdate_max_seq]
  · split
    · simp [jitterUpdate_max_seq, cycleUpdate_max_seq]
    · rcases hb : st.base_seq with _ | b <;> simp [hm]

lemma statsFold_base_isSome :
    ∀ (L : List (RtpPacket × Int)) (st : StreamStatistics),
      st.base_seq.isSome = true → (statsFold st L).base_seq.isSome = true := by
  intro L
  induction L with
  | nil => intro st h; exact h
  | cons pa rest ih =>
    intro st _
    exact ih (st.add pa.1 pa.2) (add_base_isSome st pa.1 pa.2)

lemma statsFold_max_isSome :
    ∀ (L : List (RtpPacket × Int)) (st : StreamStatistics),
      st.max_seq.isSome = true → (statsFold st L).max_seq.isSome = true := by
  intro L
  induction L with
  | nil => intro st h; exact h
  | cons pa rest ih =>
    intro st _
    exact ih (st.add pa.1 pa.2) (add_max_isSome st pa.1 pa.2)

/-- C5, counterexample: on the wrap from 65535 to 0, `cycles` gains
exactly 65536, but `packets_expected` only goes from 1 to 2 — it does
not gain 65536, because the `max_seq` term of the formula simultaneously
drops by 65535. -/
theorem cycles_wrap_expected_gains_one :
    ((StreamStatistics.init 8000).add { sequence_number := 65535 } 0).cycles = 0
    ∧ (((StreamStatistics.init 8000).add { sequence_number := 65535 } 0).add
        { sequence_number := 0 } 0).cycles = 65536
    ∧ ((StreamStatistics.init 8000).add { sequence_number := 65535 } 0).packets_expected
        = some 1
    ∧ (((StreamStatistics.init 8000).add { sequence_number := 65535 } 0).add
        { sequence_number := 0 } 0).packets_expected = some 2
    ∧ (((StreamStatistics.init 8000).add { sequence_number := 65535 } 0).add
        { sequence_number := 0 } 0).packets_expected ≠ some (1 + 65536) := by
  refine ⟨by decide, by decide, by decide, by decide, by decide⟩

/-- C5, amended: a 16-bit-greater but numerically smaller sequence adds
exactly 2^16 to `cycles` (on the 65535 → 0 wrap `packets_expected` rises
by 1, not by 65536, since the `max_seq` drop offsets the cycle bump);
whenever at least one packet has been received, `max_seq` and `base_seq`
are set, `packets_expected = cycles + max_seq - base_seq + 1`, and
`packets_lost` is the clamped difference `expected - received`; on a
loss-free in-order (consecutive-sequence) trace, `packets_lost = 0`. -/
theorem stats_cycles_and_expected :
    (∀ (st : StreamStatistics) (p : RtpPacket) (a : Int) (m b : Nat),
        st.max_seq = some m → st.base_seq = some b →
        uint16_gt p.sequence_number m = true → p.sequence_number < m →
        (st.add p a).cycles = st.cycles + 65536)
    ∧ (∀ (st : StreamStatistics) (m b : Nat),
        st.max_seq = some m → st.base_seq = some b →
        st.packets_expected = some ((st.cycles : Int) + m - b + 1)
        ∧ st.packets_lost = some (clamp_packets_lost
            (((st.cycles : Int) + m - b + 1) - st.packets_received)))
    ∧ (∀ (cr : Nat) (pa : RtpPacket × Int) (L : List (RtpPacket × Int)),
        (statsFold (StreamStatistics.init cr) (pa :: L)).max_seq.isSome = true
        ∧ (statsFold (StreamStatistics.init cr) (pa :: L)).base_seq.isSome = true)
    ∧ (∀ (cr s0 : Nat) (L : List (RtpPacket × Int)), s0 < 65536 → L ≠ [] →
        (∀ i (h : i < L.length),
          (L.get ⟨i, h⟩).1.sequence_number = (s0 + i) % 65536) →
        (statsFold (StreamStatistics.init cr) L).packets_lost = some 0) := by
  refine ⟨?_, ?_, ?_, ?_⟩
  · intro st p a m b hmax hb hgt hlt
    obtain ⟨-, -, -, h4⟩ := add_gt_proj st p a m b hmax hb hgt
    rw [h4, if_pos hlt]
  · intro st m b hmax hb
    constructor
    · simp [StreamStatistics.packets_expected, hmax, hb]
    · simp [StreamStatistics.packets_lost, StreamStatistics.packets_expected, hmax, hb]
  · intro cr pa L
    have hstep : statsFold (StreamStatistics.init cr) (pa :: L)
        = statsFold ((StreamStatistics.init cr).add pa.1 pa.2) L := by
      rcases pa with ⟨p, a⟩
      rfl
    rw [hstep]
    exact ⟨statsFold_max_isSome L _ (add_max_isSome _ _ _),
      statsFold_base_isSome L _ (add_base_isSome _ _ _)⟩
  · intro cr s0 L hs0 hne hidx
    rcases L with _ | ⟨⟨p, a⟩, rest⟩
    · exact absurd rfl hne
    have hseq0 : p.sequence_number = s0 := by
      have := hidx 0 (by simp)
      simpa [Nat.mod_eq_of_lt hs0] using this
    obtain ⟨f1, f2, f3, f4⟩ := add_first_proj cr p a
    rw [hseq0] at f1 f2
    have hidx' : ∀ i (h : i < rest.length),
        (rest.get ⟨i, h⟩).1.sequence_number = (s0 + 1 + i) % 65536 := by
      intro i h
      have := hidx (i + 1) (by simpa using Nat.succ_lt_succ h)
      simp only [List.get_cons_succ] at this
      rw [this]
      omega
    obtain ⟨r1, r2, mx', r3, r4, r5⟩ := consec_fold rest
      ((StreamStatistics.init cr).add p a) s0 1 s0 f1 f3 f2 hs0
      (by rw [f4]; push_cast; ring) hidx'
    have hfold : statsFold (StreamStatistics.init cr) ((p, a) :: rest)
        = statsFold ((StreamStatistics.init cr).add p a) rest := rfl
    rw [hfold]
    have hval : clamp_packets_lost
        (((statsFold ((StreamStatistics.init cr).add p a) rest).cycles : Int)
          + (mx' : Int) - (s0 : Int) + 1
          - ((statsFold ((StreamStatistics.init cr).add p a) rest).packets_received
              : Int)) = 0 := by
      have harg : ((statsFold ((StreamStatistics.init cr).add p a) rest).cycles : Int)
          + (mx' : Int) - (s0 : Int) + 1
          - ((statsFold ((StreamStatistics.init cr).add p a) rest).packets_received
              : Int) = 0 := by
        rw [r2]
        push_cast at r5 ⊢
        omega
      rw [harg]
      decide
    simp [StreamStatistics.packets_lost, StreamStatistics.packets_expected,
      r3, r1, hval]

/-- Witness for `stats_cycles_and_expected` on the loss-free trace with
sequences 3, 4. -/
theorem stats_cycles_and_expected_witness :
    (3 : Nat) < 65536
    ∧ ([(({ sequence_number := 3 } : RtpPacket), (0 : Int)),
        ({ sequence_number := 4 }, 0)] : List (RtpPacket × Int)) ≠ []
    ∧ (∀ i (h : i < ([(({ sequence_number := 3 } : RtpPacket), (0 : Int)),
          ({ sequence_number := 4 }, 0)] : List (RtpPacket × Int)).length),
        ((([(({ sequence_number := 3 } : RtpPacket), (0 : Int)),
          ({ sequence_number := 4 }, 0)] : List (RtpPacket × Int)).get
            ⟨i, h⟩).1.sequence_number) = (3 + i) % 65536)
    ∧ (statsFold (StreamStatistics.init 8000)
        [({ sequence_number := 3 }, 0), ({ sequence_number := 4 }, 0)]).packets_lost
        = some 0 :=
  ⟨by decide, by decide, by decide,
    stats_cycles_and_expected.2.2.2 8000 3
      [({ sequence_number := 3 }, 0), ({ sequence_number := 4 }, 0)]
      (by decide) (by decide) (by decide)⟩

/-- C6: a `fraction_lost` read returns
`((expected_interval - received_interval) << 8) // expected_interval`
(0 when the expected interval is 0 or no loss occurred in the
interval), and every read — including ones returning 0 — stores the
current totals into the priors, so a second read with no intervening
`add` returns 0. -/
theorem fraction_lost_spec (st : StreamStatistics) (E : Int)
    (hE : st.packets_expected = some E) :
    ∃ v st2, st.fraction_lost = some (v, st2)
    ∧ v = (if E - st.expected_prior = 0
            ∨ (E - st.expected_prior)
              - ((st.packets_received : Int) - st.received_prior) ≤ 0
          then 0
          else Int.fdiv (((E - st.expected_prior)
            - ((st.packets_received : Int) - st.received_prior)) * 256)
            (E - st.expected_prior))
    ∧ st2.expected_prior = E
    ∧ st2.received_prior = (st.packets_received : Int)
    ∧ st2.max_seq = st.max_seq ∧ st2.base_seq = st.base_seq
    ∧ st2.cycles = st.cycles ∧ st2.packets_received = st.packets_received
    ∧ ∃ st3, st2.fraction_lost = some ((0 : Int), st3) := by
  have hE2 : StreamStatistics.packets_expected
      { st with expected_prior := E, received_prior := (st.packets_received : Int) }
      = some E := hE
  by_cases hcond : E - st.expected_prior = 0
    ∨ (E - st.expected_prior)
      - ((st.packets_received : Int) - st.received_prior) ≤ 0
  · refine ⟨0, { st with expected_prior := E, received_prior := (st.packets_received : Int) }, ?_, by rw [if_pos hcond], rfl, rfl, rfl, rfl, rfl, rfl, ?_⟩
    · simp only [StreamStatistics.fraction_lost, hE]
      rw [if_pos hcond]
    · refine ⟨{ st with expected_prior := E, received_prior := (st.packets_received : Int) }, ?_⟩
      simp only [StreamStatistics.fraction_lost, hE2]
      rw [if_pos (Or.inl (by ring))]
  · refine ⟨_, { st with expected_prior := E, received_prior := (st.packets_received : Int) }, ?_, by rw [if_neg hcond], rfl, rfl, rfl, rfl, rfl, rfl, ?_⟩
    · simp only [StreamStatistics.fraction_lost, hE]
      rw [if_neg hcond]
    · refine ⟨{ st with expected_prior := E, received_prior := (st.packets_received : Int) }, ?_⟩
      simp only [StreamStatistics.fraction_lost, hE2]
      rw [if_pos (Or.inl (by ring))]

/-- Witness for `fraction_lost_spec` at `sampleStats` (expected 4,
received 3). -/
theorem fraction_lost_spec_witness :
    sampleStats.packets_expected = some 4
    ∧ ∃ v st2, sampleStats.fraction_lost = some (v, st2)
      ∧ v = (if (4 : Int) - sampleStats.expected_prior = 0
              ∨ ((4 : Int) - sampleStats.expected_prior)
                - ((sampleStats.packets_received : Int) - sampleStats.received_prior) ≤ 0
            then 0
            else Int.fdiv ((((4 : Int) - sampleStats.expected_prior)
              - ((sampleStats.packets_received : Int) - sampleStats.received_prior)) * 256)
              ((4 : Int) - sampleStats.expected_prior))
      ∧ st2.expected_prior = 4
      ∧ st2.received_prior = (sampleStats.packets_received : Int)
      ∧ st2.max_seq = sampleStats.max_seq ∧ st2.base_seq = sampleStats.base_seq
      ∧ st2.cycles = sampleStats.cycles
      ∧ st2.packets_received = sampleStats.packets_received
      ∧ ∃ st3, st2.fraction_lost = some ((0 : Int), st3) :=
  ⟨by decide, fraction_lost_spec sampleStats 4 (by decide)⟩

lemma all_not_any (l : List RtpPacket) :
    (l.all fun q => !(pktIsEnd q)) = !(l.any pktIsEnd) := by
  induction l with
  | nil => rfl
  | cons a l ih => simp [List.all_cons, List.any_cons, ih]

lemma runRev_concat_same (prev : List RtpPacket) (p : RtpPacket) :
    runRev (prev ++ [p]) p.timestamp = p :: runRev prev p.timestamp := by
  simp only [runRev, List.reverse_append, List.reverse_cons, List.reverse_nil,
    List.nil_append, List.cons_append]
  rw [List.takeWhile_cons_of_pos (by simp)]

lemma runRev_nil_of_last_ne (prev : List RtpPacket) (t : Nat)
    (h : ∀ q, prev.getLast? = some q → q.timestamp ≠ t) :
    runRev prev t = [] := by
  rcases hrev : prev.reverse with _ | ⟨q, l⟩
  · simp [runRev, hrev]
  · have hq : prev.getLast? = some q := by
      rw [List.getLast?_eq_head?_reverse, hrev]
      rfl
    have hne := h q hq
    simp only [runRev, hrev]
    exact List.takeWhile_cons_of_neg (by simp [hne])

lemma parse_payload_eq (p : RtpPacket) (hlen : 4 ≤ p.payload.length) :
    DtmfEvent.parse p.payload
      = some ⟨p.payload.getD 0 0, pktIsEnd p, (p.payload.getD 1 0) &&& 63,
              pktDuration p⟩ := by
  simp only [DtmfEvent.parse, pktIsEnd, pktDuration]
  rw [if_neg (by omega)]

lemma handle_packet_step (r : DtmfReceiver) (prev : List RtpPacket) (p : RtpPacket)
    (hrel : RecvRel r prev) (hlen : 4 ≤ p.payload.length) :
    ∃ r2, r.handle_packet p
        = some (r2, if fireHere prev p then [(pktDigit p, pktDuration p)] else [])
      ∧ RecvRel r2 (prev ++ [p]) := by
  have hparse := parse_payload_eq p hlen
  by_cases hts : r.current_timestamp = some p.timestamp
  · -- same timestamp: no reset
    rcases hlast : prev.getLast? with _ | q
    · rw [RecvRel, hlast] at hrel
      rw [hrel.1] at hts
      exact absurd hts (by simp)
    · rw [RecvRel, hlast] at hrel
      obtain ⟨hcur, hseen⟩ := hrel
      have hqts : q.timestamp = p.timestamp := by
        rw [hcur] at hts
        injection hts
      rw [hqts] at hseen
      have hc : ¬(r.current_timestamp ≠ some p.timestamp) := by simp [hts]
      have hfh : fireHere prev p = (pktIsEnd p && !r.end_seen) := by
        rw [fireHere, all_not_any, hseen]
      simp only [DtmfReceiver.handle_packet, hparse]
      rw [if_neg hc]
      by_cases hfire : (pktIsEnd p = true ∧ ¬ r.end_seen = true)
      · have hft : fireHere prev p = true := by
          rw [hfh, hfire.1]
          have : r.end_seen = false := by
            revert hfire
            cases r.end_seen <;> simp
          rw [this]
          rfl
        refine ⟨⟨r.current_event, r.current_timestamp, true⟩, ?_, ?_⟩
        · rw [if_pos hfire, if_pos hft]
          rfl
        · rw [RecvRel, List.getLast?_concat]
          refine ⟨hts, ?_⟩
          rw [runRev_concat_same, List.any_cons, hfire.1]
          rfl
      · have hff : fireHere prev p = false := by
          rw [hfh]
          by_cases hpe : pktIsEnd p = true
          · have hes : r.end_seen = true := by
              by_contra hesf
              exact hfire ⟨hpe, by simpa using hesf⟩
            rw [hpe, hes]
            rfl
          · have : pktIsEnd p = false := by
              revert hpe
              cases pktIsEnd p <;> simp
            rw [this]
            rfl
        refine ⟨r, ?_, ?_⟩
        · rw [if_neg hfire, if_neg (by simp [hff])]
        · rw [RecvRel, List.getLast?_concat]
          refine ⟨hts, ?_⟩
          rw [runRev_concat_same, List.any_cons, ← hseen]
          by_cases hpe : pktIsEnd p = true
          · have hes : r.end_seen = true := by
              by_contra hesf
              exact hfire ⟨hpe, by simpa using hesf⟩
            rw [hpe, hes]
            rfl
          · have : pktIsEnd p = false := by
              revert hpe
              cases pktIsEnd p <;> simp
            rw [this]
            simp
  · -- timestamp change: reset
    have hrun : runRev prev p.timestamp = [] := by
      apply runRev_nil_of_last_ne
      intro q hq
      rw [RecvRel, hq] at hrel
      intro hqt
      exact hts (by rw [hrel.1, hqt])
    have hfh : fireHere prev p = pktIsEnd p := by
      rw [fireHere, hrun]
      simp
    simp only [DtmfReceiver.handle_packet, hparse]
    rw [if_pos hts]
    by_cases hend : pktIsEnd p = true
    · refine ⟨⟨some (p.payload.getD 0 0), some p.timestamp, true⟩, ?_, ?_⟩
      · rw [if_pos (by exact ⟨hend, by simp⟩), if_pos (by rw [hfh]; exact hend)]
        rfl
      · rw [RecvRel, List.getLast?_concat]
        refine ⟨rfl, ?_⟩
        rw [runRev_concat_same, hrun, List.any_cons, List.any_nil, hend]
        rfl
    · refine ⟨⟨some (p.payload.getD 0 0), some p.timestamp, false⟩, ?_, ?_⟩
      · rw [if_neg (by simp [hend]), if_neg (by rw [hfh]; exact hend)]
      · rw [RecvRel, List.getLast?_concat]
        refine ⟨rfl, ?_⟩
        rw [runRev_concat_same, hrun, List.any_cons, List.any_nil]
        have : pktIsEnd p = false := by
          revert hend
          cases pktIsEnd p <;> simp
        rw [this]
        rfl

lemma dtmfFold_spec :
    ∀ (ps prev : List RtpPacket) (r : DtmfReceiver),
      RecvRel r prev → (∀ p ∈ ps, 4 ≤ p.payload.length) →
      ∃ r2, dtmfFold r ps = some (r2, specFires prev ps) := by
  intro ps
  induction ps with
  | nil =>
    intro prev r _ _
    exact ⟨r, rfl⟩
  | cons p rest ih =>
    intro prev r hrel hlen
    obtain ⟨r1, hstep, hrel1⟩ :=
      handle_packet_step r prev p hrel (hlen p (by simp))
    obtain ⟨r2, hrest⟩ := ih (prev ++ [p]) r1 hrel1
      (fun q hq => hlen q (by simp [hq]))
    refine ⟨r2, ?_⟩
    simp only [dtmfFold, hstep, hrest, specFires]

/-- C3, counterexample: with timestamps alternating 1000, 2000, 1000
(all end packets), the callback fires three times — twice for timestamp
1000 — so "at most once per distinct RTP timestamp" fails; each
timestamp *change* re-arms the receiver. -/
theorem dtmf_refires_for_repeated_timestamp :
    dtmfFold DtmfReceiver.init
        [dtmfEndPacket1 100, dtmfEndPacket2 101, dtmfEndPacket1 102]
      = some (⟨some 1, some 1000, true⟩, [("1", 400), ("2", 400), ("1", 400)])
    ∧ (dtmfEndPacket1 100).timestamp = (dtmfEndPacket1 102).timestamp
    ∧ ([dtmfEndPacket1 100, dtmfEndPacket2 101, dtmfEndPacket1 102].map
        (fun p => p.timestamp)) = [1000, 2000, 1000] := by
  refine ⟨by decide, by decide, by decide⟩

/-- C3, amended: along every trace of DTMF packets (with parseable
payloads), the callback fires exactly on the first end-flagged packet of
each contiguous equal-timestamp run — with that packet's digit and
duration — and further end packets of the same run are ignored; in
particular three identical end packets (timestamp 2000, event 5,
duration 1280) fire exactly once with ("5", 1280). -/
theorem dtmf_fires_once_per_run :
    (∀ (ps : List RtpPacket), (∀ p ∈ ps, 4 ≤ p.payload.length) →
      ∃ r2, dtmfFold DtmfReceiver.init ps = some (r2, specFires [] ps))
    ∧ dtmfFold DtmfReceiver.init
        [dtmfEndPacket5 100, dtmfEndPacket5 101, dtmfEndPacket5 102]
        = some (⟨some 5, some 2000, true⟩, [("5", 1280)]) := by
  constructor
  · intro ps h
    exact dtmfFold_spec ps [] DtmfReceiver.init ⟨rfl, rfl⟩ h
  · decide

/-- Witness for `dtmf_fires_once_per_run` on the three-identical-end
trace. -/
theorem dtmf_fires_once_per_run_witness :
    (∀ p ∈ [dtmfEndPacket5 100, dtmfEndPacket5 101, dtmfEndPacket5 102],
        4 ≤ p.payload.length)
    ∧ ∃ r2, dtmfFold DtmfReceiver.init
        [dtmfEndPacket5 100, dtmfEndPacket5 101, dtmfEndPacket5 102]
        = some (r2, specFires []
            [dtmfEndPacket5 100, dtmfEndPacket5 101, dtmfEndPacket5 102]) :=
  ⟨by decide, dtmf_fires_once_per_run.1
    [dtmfEndPacket5 100, dtmfEndPacket5 101, dtmfEndPacket5 102] (by decide)⟩

/-- C8: once the closed flag is set, `send_audio` and `send_dtmf`
return silently — no datagram is sent, the sender state (sequence
number, packets_sent, octets_sent) is untouched, and no error is
raised. -/
theorem closed_session_send_noop (sess : RTPSession) (h : sess.closed = true)
    (payload : List Nat) (ts : Nat) (digit : Char) (dur : Nat) :
    sess.send_audio payload ts = (sess, [])
    ∧ sess.send_dtmf digit dur ts = .ok (sess, []) := by
  constructor
  · rcases hsd : sess.sender with _ | sd <;>
      simp [RTPSession.send_audio, hsd, h]
  · rcases hsd : sess.sender with _ | sd <;>
      simp [RTPSession.send_dtmf, hsd, h]

/-- Witness for `closed_session_send_noop` on a concrete closed
session. -/
theorem closed_session_send_noop_witness :
    closedSession.closed = true
    ∧ closedSession.send_audio [1, 2] 160 = (closedSession, [])
    ∧ closedSession.send_dtmf '5' 160 0 = .ok (closedSession, []) :=
  ⟨rfl, (closed_session_send_noop closedSession rfl [1, 2] 160 '5' 160).1,
    (closed_session_send_noop closedSession rfl [1, 2] 160 '5' 160).2⟩

lemma dtmf_event_code_none_of_not_mem (n : Nat) (h : n ∉ dtmfDigitCodes) :
    dtmf_event_code (pyUpper n) = none := by
  simp only [dtmfDigitCodes, List.mem_cons, List.not_mem_nil, or_false,
    not_or] at h
  by_cases hc : 97 ≤ n ∧ n ≤ 122
  · unfold pyUpper
    rw [if_pos hc]
    unfold dtmf_event_code
    split <;> first | rfl | (exfalso; omega)
  · unfold pyUpper
    rw [if_neg hc]
    unfold dtmf_event_code
    split <;> first | rfl | (exfalso; omega)

lemma dtmf_event_code_some_of_mem (n : Nat) (h : n ∈ dtmfDigitCodes) :
    (dtmf_event_code (pyUpper n)).isSome = true := by
  simp only [dtmfDigitCodes, List.mem_cons, List.not_mem_nil, or_false] at h
  rcases h with rfl | rfl | rfl | rfl | rfl | rfl | rfl | rfl | rfl | rfl |
    rfl | rfl | rfl | rfl | rfl | rfl | rfl | rfl | rfl | rfl <;> rfl

lemma progressLoop_no_invalidDigit (evCode vol ts pt stepS durS : Nat) :
    ∀ (fuel cur : Nat) (acc : List RtpPacket) (s : RtpSender) (e : DtmfError),
      progressLoop evCode vol ts pt stepS durS fuel cur acc s = .error e →
      e ≠ .invalidDigit := by
  intro fuel
  induction fuel with
  | zero =>
    intro cur acc s e h he
    subst he
    simp only [progressLoop] at h
    split at h
    · exact absurd h (by simp)
    · exact absurd h (by simp)
  | succ fuel ih =>
    intro cur acc s e h he
    subst he
    simp only [progressLoop] at h
    split at h
    · split at h
      · exact absurd h (by simp)
      · exact ih _ _ _ _ h rfl
    · exact absurd h (by simp)

lemma endLoop_no_invalidDigit (evCode vol ts pt durS : Nat) :
    ∀ (n i : Nat) (s : RtpSender) (e : DtmfError),
      endLoop evCode vol ts pt durS n i s = .error e →
      e ≠ .invalidDigit := by
  intro n
  induction n with
  | zero =>
    intro i s e h he
    subst he
    simp only [endLoop] at h
    exact absurd h (by simp)
  | succ n ih =>
    intro i s e h he
    subst he
    simp only [endLoop] at h
    split at h
    · exact absurd h (by simp)
    · split at h
      · rename_i e2 heq2
        injection h with h2
        subst h2
        exact ih _ _ _ heq2 rfl
      · exact absurd h (by simp)

/-- C9: a character that is not a DTMF digit (not 0-9, `*`, `#`, A-D in
either case) makes `send_digit` fail synchronously with the
invalid-digit error before any packet is built or any state changed
(the `Except` result carries no packets and leaves the caller's sender
untouched); a character that is a DTMF digit — lowercase a-d included —
never produces that error. -/
theorem invalid_digit_rejected :
    (∀ (c : Char), c.toNat ∉ dtmfDigitCodes →
      ∀ (duration_ms vol ts pt cr : Nat) (s : RtpSender),
        DtmfSender.send_digit c duration_ms vol ts pt cr s
          = .error .invalidDigit)
    ∧ (∀ (c : Char), c.toNat ∈ dtmfDigitCodes →
      ∀ (duration_ms vol ts pt cr : Nat) (s : RtpSender) (e : DtmfError),
        DtmfSender.send_digit c duration_ms vol ts pt cr s = .error e →
        e ≠ .invalidDigit) := by
  constructor
  · intro c hc dur vol ts pt cr s
    unfold DtmfSender.send_digit
    rw [dtmf_event_code_none_of_not_mem c.toNat hc]
  · intro c hc dur vol ts pt cr s e h he
    subst he
    have hsome := dtmf_event_code_some_of_mem c.toNat hc
    rcases hcode : dtmf_event_code (pyUpper c.toNat) with _ | k
    · rw [hcode] at hsome
      exact absurd hsome (by simp)
    · unfold DtmfSender.send_digit at h
      rw [hcode] at h
      dsimp only at h
      split at h
      · rename_i e1 heq1
        injection h with h2
        subst h2
        exact progressLoop_no_invalidDigit _ _ _ _ _ _ _ _ _ _ _ heq1 rfl
      · split at h
        · rename_i e2 heq2
          injection h with h2
          subst h2
          exact endLoop_no_invalidDigit _ _ _ _ _ _ _ _ _ heq2 rfl
        · exact absurd h (by simp)

/-- Witness for `invalid_digit_rejected` at the non-digit character
`x`. -/
theorem invalid_digit_rejected_witness :
    ('x').toNat ∉ dtmfDigitCodes
    ∧ DtmfSender.send_digit 'x' 160 10 0 101 8000 ⟨0, 7, 8000, 100, 2, 3⟩
        = .error .invalidDigit :=
  ⟨by decide,
    invalid_digit_rejected.1 'x' (by decide) 160 10 0 101 8000 ⟨0, 7, 8000, 100, 2, 3⟩⟩

lemma senderAdvance_packets :
    ∀ (n : Nat) (s : RtpSender),
      (senderAdvance s n).packets_sent = s.packets_sent + n
      ∧ (senderAdvance s n).octets_sent = s.octets_sent + 4 * n
      ∧ (senderAdvance s n).payload_type = s.payload_type
      ∧ (senderAdvance s n).ssrc = s.ssrc := by
  intro n
  induction n with
  | zero => intro s; exact ⟨rfl, by simp [senderAdvance], rfl, rfl⟩
  | succ n ih =>
    intro s
    obtain ⟨h1, h2, h3, h4⟩ := ih
      { s with sequence_number := uint16_add s.sequence_number 1,
               packets_sent := s.packets_sent + 1,
               octets_sent := s.octets_sent + 4 }
    refine ⟨?_, ?_, h3, h4⟩
    · rw [senderAdvance, h1]
      dsimp only
      omega
    · rw [senderAdvance, h2]
      dsimp only
      omega

lemma senderAdvance_seq :
    ∀ (n : Nat) (s : RtpSender), s.sequence_number < 65536 →
      (senderAdvance s n).sequence_number = (s.sequence_number + n) % 65536 := by
  intro n
  induction n with
  | zero =>
    intro s hs
    rw [senderAdvance]
    omega
  | succ n ih =>
    intro s hs
    rw [senderAdvance]
    have hb : ({ s with sequence_number := uint16_add s.sequence_number 1, packets_sent := s.packets_sent + 1, octets_sent := s.octets_sent + 4 } : RtpSender).sequence_number = (s.sequence_number + 1) % 65536 :=
      uint16_add_one s.sequence_number
    rw [ih _ (by rw [hb]; exact Nat.mod_lt _ (by norm_num)), hb]
    omega

lemma serialize_progress (evCode vol cur : Nat) (hev : evCode ≤ 255)
    (hcur : cur ≤ 65535) :
    DtmfEvent.serialize ⟨evCode, false, vol, cur⟩
      = some [evCode, vol &&& 63, cur / 256, cur % 256] := by
  unfold DtmfEvent.serialize
  rw [if_pos ⟨hev, hcur⟩]
  simp

lemma serialize_end (evCode vol durS : Nat) (hev : evCode ≤ 255)
    (hdur : durS ≤ 65535) :
    DtmfEvent.serialize ⟨evCode, true, vol, durS⟩
      = some (endPayload evCode vol durS) := by
  unfold DtmfEvent.serialize endPayload
  rw [if_pos ⟨hev, hdur⟩]
  rfl

lemma progressLoop_spec (evCode vol ts pt stepS durS : Nat)
    (hev : evCode ≤ 255) (hdur : durS ≤ 65535) :
    ∀ (r fuel cur : Nat) (acc : List RtpPacket) (s : RtpSender),
      r ≤ fuel → s.sequence_number < 65536 →
      (∀ k, k < r → cur + k * stepS < durS) →
      durS ≤ cur + r * stepS →
      progressLoop evCode vol ts pt stepS durS fuel cur acc s
        = .ok (acc ++ (List.range r).map (fun k =>
            (⟨pt, 0, (s.sequence_number + k) % 65536, ts, s.ssrc,
              [evCode, vol &&& 63, (cur + k * stepS) / 256,
               (cur + k * stepS) % 256]⟩ : RtpPacket)),
          senderAdvance s r) := by
  intro r
  induction r with
  | zero =>
    intro fuel cur acc s _ _ _ hend
    have hnc : ¬ cur < durS := by omega
    cases fuel with
    | zero =>
      simp only [progressLoop]
      rw [if_neg hnc]
      simp [senderAdvance]
    | succ fuel =>
      simp only [progressLoop]
      rw [if_neg hnc]
      simp [senderAdvance]
  | succ r ih =>
    intro fuel cur acc s hfuel hseq hlt hend
    have hc : cur < durS := by
      have h0 := hlt 0 (by omega)
      simpa using h0
    cases fuel with
    | zero => exact absurd hfuel (by omega)
    | succ fuel =>
      simp only [progressLoop]
      rw [if_pos hc, serialize_progress evCode vol cur hev (by omega)]
      dsimp only
      have hbseq : ({ s with sequence_number := uint16_add s.sequence_number 1, packets_sent := s.packets_sent + 1, octets_sent := s.octets_sent + ([evCode, vol &&& 63, cur / 256, cur % 256] : List Nat).length } : RtpSender).sequence_number = (s.sequence_number + 1) % 65536 :=
        uint16_add_one s.sequence_number
      rw [ih fuel (cur + stepS) _ _ (by omega)
        (by rw [hbseq]; exact Nat.mod_lt _ (by norm_num))
        (by
          intro k hk
          have h2 := hlt (k + 1) (by omega)
          rw [Nat.succ_mul] at h2
          omega)
        (by
          rw [Nat.succ_mul] at hend
          omega)]
      have hadv : senderAdvance ({ s with sequence_number := uint16_add s.sequence_number 1, packets_sent := s.packets_sent + 1, octets_sent := s.octets_sent + ([evCode, vol &&& 63, cur / 256, cur % 256] : List Nat).length } : RtpSender) r = senderAdvance s (r + 1) := by
        rw [senderAdvance]
        rfl
      rw [hadv, List.append_assoc]
      have hlist : ((⟨pt, 0, s.sequence_number, ts, s.ssrc,
            [evCode, vol &&& 63, cur / 256, cur % 256]⟩ : RtpPacket)
          :: (List.range r).map (fun k =>
            (⟨pt, 0, (((s.sequence_number + 1) % 65536) + k) % 65536, ts, s.ssrc,
              [evCode, vol &&& 63, (cur + stepS + k * stepS) / 256,
               (cur + stepS + k * stepS) % 256]⟩ : RtpPacket)))
          = (List.range (r + 1)).map (fun k =>
            (⟨pt, 0, (s.sequence_number + k) % 65536, ts, s.ssrc,
              [evCode, vol &&& 63, (cur + k * stepS) / 256,
               (cur + k * stepS) % 256]⟩ : RtpPacket)) := by
        rw [List.range_succ_eq_map, List.map_cons, List.map_map]
        congr 1
        · have : (s.sequence_number + 0) % 65536 = s.sequence_number :=
            by omega
          rw [this]
          simp
        · apply List.map_congr_left
          intro k hk
          have hd : cur + stepS + k * stepS = cur + (k + 1) * stepS := by
            rw [Nat.succ_mul]
            ring
          have hs : (((s.sequence_number + 1) % 65536) + k) % 65536
              = (s.sequence_number + (k + 1)) % 65536 := by omega
          simp only [Function.comp_apply]
          rw [hs, hd]
      rw [← hlist]
      have hbs : ({ s with sequence_number := uint16_add s.sequence_number 1, packets_sent := s.packets_sent + 1, octets_sent := s.octets_sent + ([evCode, vol &&& 63, cur / 256, cur % 256] : List Nat).length } : RtpSender).sequence_number = (s.sequence_number + 1) % 65536 := hbseq
      have hbssrc : ({ s with sequence_number := uint16_add s.sequence_number 1, packets_sent := s.packets_sent + 1, octets_sent := s.octets_sent + ([evCode, vol &&& 63, cur / 256, cur % 256] : List Nat).length } : RtpSender).ssrc = s.ssrc := rfl
      rw [hbs, hbssrc]
      rfl

lemma endLoop_spec (evCode vol ts pt durS : Nat) (hev : evCode ≤ 255)
    (hdur : durS ≤ 65535) (s : RtpSender) (hseq : s.sequence_number < 65536) :
    endLoop evCode vol ts pt durS 3 0 s
      = .ok ([(⟨pt, 1, s.sequence_number, ts, s.ssrc,
                endPayload evCode vol durS⟩ : RtpPacket),
              ⟨pt, 0, (s.sequence_number + 1) % 65536, ts, s.ssrc,
                endPayload evCode vol durS⟩,
              ⟨pt, 0, (s.sequence_number + 2) % 65536, ts, s.ssrc,
                endPayload evCode vol durS⟩],
            senderAdvance s 3) := by
  have hser := serialize_end evCode vol durS hev hdur
  have h2 : ((s.sequence_number + 1) % 65536 + 1) % 65536
      = (s.sequence_number + 2) % 65536 := by omega
  simp only [endLoop, hser, senderAdvance, uint16_add_one, endPayload]
  rw [h2]
  rfl

lemma dtmf_event_code_le (n k : Nat) (h : dtmf_event_code n = some k) :
    k ≤ 15 := by
  unfold dtmf_event_code at h
  split at h <;> first | (injection h with h2; omega) | exact absurd h (by simp)

lemma senderAdvance_comp :
    ∀ (a : Nat) (s : RtpSender) (b : Nat),
      senderAdvance (senderAdvance s a) b = senderAdvance s (a + b) := by
  intro a
  induction a with
  | zero =>
    intro s b
    rw [Nat.zero_add]
    rfl
  | succ a ih =>
    intro s b
    have h : a + 1 + b = (a + b) + 1 := by omega
    rw [h]
    simp only [senderAdvance]
    exact ih _ b

/-- C7, counterexample: a valid digit, 100 ms duration and clock rate
10^7 make the first progress packet's duration field 200000, which
overflows the 16-bit field of `struct.pack("!BBH", ...)` — `send_digit`
raises instead of emitting the claimed packet sequence. -/
theorem send_digit_pack_overflow :
    DtmfSender.send_digit '5' 100 10 0 101 10000000 ⟨101, 7, 10000000, 0, 0, 0⟩
      = .error .packOverflow := by
  rfl

/-- C7, amended: for a valid digit (after uppercasing), provided the
step is at least one sample (clock rate at least 50 Hz — the source
loops forever otherwise) and the total duration fits the 16-bit field
(`duration_ms * clock_rate / 1000 <= 65535` — `struct.pack` raises
otherwise), `send_digit` emits exactly: progress packets with
`end=false` at cumulative durations `step, 2*step, ...` for every
multiple strictly below `duration_samples` (the count `K` being
characterized by the two bound hypotheses), then exactly three
`end=true` packets at the full duration of which only the first has
marker 1; all packets share the starting timestamp, sequence numbers
advance by 1 mod 2^16, and the counters advance by one packet and 4
payload octets each. -/
theorem send_digit_packet_sequence
    (digit : Char) (evCode : Nat)
    (hcode : dtmf_event_code (pyUpper digit.toNat) = some evCode)
    (duration_ms vol ts pt cr : Nat) (s : RtpSender)
    (hseq : s.sequence_number < 65536)
    (hstep : 1 ≤ 20 * cr / 1000)
    (hdur : duration_ms * cr / 1000 ≤ 65535)
    (K : Nat)
    (hK1 : ∀ k, k < K → (k + 1) * (20 * cr / 1000) < duration_ms * cr / 1000)
    (hK2 : duration_ms * cr / 1000 ≤ (K + 1) * (20 * cr / 1000)) :
    DtmfSender.send_digit digit duration_ms vol ts pt cr s
      = .ok (((List.range K).map (fun k =>
            (⟨pt, 0, (s.sequence_number + k) % 65536, ts, s.ssrc,
              [evCode, vol &&& 63, ((k + 1) * (20 * cr / 1000)) / 256,
               ((k + 1) * (20 * cr / 1000)) % 256]⟩ : RtpPacket)))
          ++ [⟨pt, 1, (s.sequence_number + K) % 65536, ts, s.ssrc,
                endPayload evCode vol (duration_ms * cr / 1000)⟩,
              ⟨pt, 0, (s.sequence_number + K + 1) % 65536, ts, s.ssrc,
                endPayload evCode vol (duration_ms * cr / 1000)⟩,
              ⟨pt, 0, (s.sequence_number + K + 2) % 65536, ts, s.ssrc,
                endPayload evCode vol (duration_ms * cr / 1000)⟩],
          senderAdvance s (K + 3)) := by
  have hev : evCode ≤ 255 := le_trans (dtmf_event_code_le _ _ hcode) (by norm_num)
  have hKdur : K ≤ duration_ms * cr / 1000 + 1 := by
    rcases Nat.eq_zero_or_pos K with h0 | hpos
    · omega
    · have h1 := hK1 (K - 1) (by omega)
      have hKK : K - 1 + 1 = K := by omega
      rw [hKK] at h1
      have h3 : K ≤ K * (20 * cr / 1000) :=
        Nat.le_mul_of_pos_right K (by omega)
      omega
  have hlt : ∀ k, k < K →
      20 * cr / 1000 + k * (20 * cr / 1000) < duration_ms * cr / 1000 := by
    intro k hk
    have h1 := hK1 k hk
    rw [Nat.succ_mul] at h1
    omega
  have hend : duration_ms * cr / 1000
      ≤ 20 * cr / 1000 + K * (20 * cr / 1000) := by
    rw [Nat.succ_mul] at hK2
    omega
  have hprog := progressLoop_spec evCode vol ts pt (20 * cr / 1000)
    (duration_ms * cr / 1000) hev hdur K (duration_ms * cr / 1000 + 1)
    (20 * cr / 1000) [] s hKdur hseq hlt hend
  have hs1seq : (senderAdvance s K).sequence_number
      = (s.sequence_number + K) % 65536 := senderAdvance_seq K s hseq
  have hs1ssrc : (senderAdvance s K).ssrc = s.ssrc :=
    (senderAdvance_packets K s).2.2.2
  have hendl := endLoop_spec evCode vol ts pt (duration_ms * cr / 1000)
    hev hdur (senderAdvance s K) (by rw [hs1seq]; exact Nat.mod_lt _ (by norm_num))
  unfold DtmfSender.send_digit
  rw [hcode]
  dsimp only
  rw [hprog]
  dsimp only
  rw [hendl]
  dsimp only
  rw [senderAdvance_comp, hs1seq, hs1ssrc, List.nil_append]
  have he1 : ((s.sequence_number + K) % 65536 + 1) % 65536
      = (s.sequence_number + K + 1) % 65536 := by omega
  have he2 : ((s.sequence_number + K) % 65536 + 2) % 65536
      = (s.sequence_number + K + 2) % 65536 := by omega
  rw [he1, he2]
  have hmap : (List.range K).map (fun k =>
        (⟨pt, 0, (s.sequence_number + k) % 65536, ts, s.ssrc,
          [evCode, vol &&& 63, (20 * cr / 1000 + k * (20 * cr / 1000)) / 256,
           (20 * cr / 1000 + k * (20 * cr / 1000)) % 256]⟩ : RtpPacket))
      = (List.range K).map (fun k =>
        (⟨pt, 0, (s.sequence_number + k) % 65536, ts, s.ssrc,
          [evCode, vol &&& 63, ((k + 1) * (20 * cr / 1000)) / 256,
           ((k + 1) * (20 * cr / 1000)) % 256]⟩ : RtpPacket)) := by
    apply List.map_congr_left
    intro k hk
    have hd : 20 * cr / 1000 + k * (20 * cr / 1000)
        = (k + 1) * (20 * cr / 1000) := by
      rw [Nat.succ_mul]
      ring
    rw [hd]
  rw [hmap]

/-- Witness for `send_digit_packet_sequence`: digit 5, 160 ms at
8000 Hz (step 160 samples, duration 1280 samples, 7 progress packets). -/
theorem send_digit_packet_sequence_witness :
    dtmf_event_code (pyUpper ('5').toNat) = some 5
    ∧ (⟨0, 7, 8000, 100, 2, 3⟩ : RtpSender).sequence_number < 65536
    ∧ 1 ≤ 20 * 8000 / 1000
    ∧ 160 * 8000 / 1000 ≤ 65535
    ∧ (∀ k, k < 7 → (k + 1) * (20 * 8000 / 1000) < 160 * 8000 / 1000)
    ∧ 160 * 8000 / 1000 ≤ (7 + 1) * (20 * 8000 / 1000)
    ∧ DtmfSender.send_digit '5' 160 10 0 101 8000 ⟨0, 7, 8000, 100, 2, 3⟩
      = .ok (((List.range 7).map (fun k =>
            (⟨101, 0, (100 + k) % 65536, 0, 7,
              [5, 10 &&& 63, ((k + 1) * (20 * 8000 / 1000)) / 256,
               ((k + 1) * (20 * 8000 / 1000)) % 256]⟩ : RtpPacket)))
          ++ [⟨101, 1, (100 + 7) % 65536, 0, 7, endPayload 5 10 (160 * 8000 / 1000)⟩,
              ⟨101, 0, (100 + 7 + 1) % 65536, 0, 7, endPayload 5 10 (160 * 8000 / 1000)⟩,
              ⟨101, 0, (100 + 7 + 2) % 65536, 0, 7, endPayload 5 10 (160 * 8000 / 1000)⟩],
          senderAdvance ⟨0, 7, 8000, 100, 2, 3⟩ (7 + 3)) :=
  ⟨by decide, by decide, by decide, by decide, by decide, by decide,
    send_digit_packet_sequence '5' 5 (by decide) 160 10 0 101 8000
      ⟨0, 7, 8000, 100, 2, 3⟩ (by decide) (by decide) (by decide) 7
      (by decide) (by decide)⟩

end Aiortp
